import Mathlib

/-!
The i.segment module: output materialisation and teardown.

A shallow embedding of `write_output` and `close_files` from
`grass7/imagery/i.segment/write_output.c`, with the properties of the
written rasters, of the raster-library call trace and of the release order.

Conventions of the embedding

* `CELL` is a C `int` holding a segment label; `DCELL` is a C `double`.  The
  code only copies such values and fills buffers with the null pattern, so a
  `DCELL` is represented by its 64-bit IEEE-754 pattern.
* A segment store is its content, a function of `(row, col)`, together with
  the `open` flag of the segment library; `segment_get` is a pure read.
* A flag set is a dense boolean grid; `FLAG_GET` is the query of one pixel.
* The row buffers have `files->ncols` cells: the current region has
  `files->ncols` columns, so this is the part of the buffer that
  `Rast_put_row` writes.
* Every raster-library call with an effect on disk is recorded in a trace.  A
  call may fail; the GRASS raster library then calls `G_fatal_error`, which
  does not return, so the run stops at that call.
* `G_debug` and `G_percent` have no effect on any modelled state and are
  left out.
* In `close_files` every pointer member is null, live or freed, and every
  store is open or closed.  The function never assigns to a pointer member, so
  a freed pointer stays in the context.  Freeing a pointer that is already
  freed is undefined, and the run stops there.
-/

namespace ISegment

/-! ## Data model -/

/-- CELL: the integer raster cell type (a 32-bit signed `int`). -/
abbrev CELL := Int

/-- DCELL: the double raster cell type, as a 64-bit pattern. -/
abbrev DCELL := Nat

/-- The CELL null value written by `Rast_set_c_null_value`: `(int)0x80000000`. -/
def c_null : CELL := -2147483648

/-- The DCELL null value written by `Rast_set_d_null_value`: all 64 bits set. -/
def d_null : DCELL := 0xFFFFFFFFFFFFFFFF

/-- One cell of the band store: `nbands >= 1` doubles, index 0 first. -/
structure BandCell where
  first : DCELL
  rest : List DCELL
deriving DecidableEq, Repr

/-- SEGMENT: a paged store; `is_open` is the `open` member of the library's
struct, `data` the content addressed by `(row, col)`. -/
structure SEGMENT (α : Type) where
  is_open : Bool
  data : Nat → Nat → α

/-- The state of a heap pointer held by the context. -/
inductive Ptr where
  | null
  | live
  | freed
deriving DecidableEq, Repr

/-- Modelled from the spec: the FLAG type of flag.h (not in the sources at
hand), a dense boolean grid over the raster extent, behind a pointer. -/
structure FLAG where
  ptr : Ptr
  bits : Nat → Nat → Bool

/-- A scratch buffer `double *`: the pointer and the cell it points to. -/
structure Scratch where
  ptr : Ptr
  val : BandCell

/-- The members of `struct files` (declared in iseg.h, not in the sources at
hand) that `write_output` and `close_files` use, with the types their uses
show: the extent, the output names (`none` is NULL), the three stores, the
two scratch buffers, the three flag sets and the merge token. -/
structure files where
  nrows : Int
  ncols : Int
  out_name : String
  out_band : Option String
  bounds_map : Option String
  bands_seg : SEGMENT BandCell
  bounds_seg : SEGMENT CELL
  bands_val : Scratch
  second_val : Scratch
  iseg_seg : SEGMENT CELL
  candidate_flag : FLAG
  null_flag : FLAG
  seeds_flag : FLAG
  token : Ptr

/-- RASTER_MAP_TYPE: the cell type of a raster map. -/
inductive RASTER_MAP_TYPE where
  | CELL_TYPE
  | DCELL_TYPE
deriving DecidableEq, Repr

/-- A raster descriptor, identified with the map it was opened on. -/
structure Fd where
  name : String
  type : RASTER_MAP_TYPE
deriving DecidableEq, Repr

/-- The raster-library calls that `write_output` makes. -/
inductive Event where
  | open_new (name : String) (type : RASTER_MAP_TYPE)
  | put_row_c (fd : Fd) (buf : List CELL)
  | put_row_d (fd : Fd) (buf : List DCELL)
  | close (fd : Fd)
  | write_colors (name : String) (min max : Int)
  | write_history (name : String)
deriving DecidableEq, Repr

/-- The raster library as the run meets it: whether a call fails, given the
calls that succeeded before it. -/
structure RasterLib where
  fails : List Event → Event → Bool

/-- How a run ends: the function returns a value, a library call ends the
process through `G_fatal_error`, or an uninitialised variable or a released
resource is used. -/
inductive Status where
  | returned (v : Int)
  | fatal (e : Event)
  | undefined
deriving DecidableEq, Repr

/-- The state of `write_output` between two statements: the context, the local
`mean_fd` (`none` while uninitialised), the two row buffers, the calls made so
far and the number of `segment_get` calls on the band store. -/
structure St where
  files : files
  mean_fd : Option Fd
  outbuf : List CELL
  meanbuf : List DCELL
  trace : List Event
  band_reads : Nat

/-- What a run leaves behind. -/
structure Outcome where
  files : files
  trace : List Event
  band_reads : Nat
  status : Status

/-! ## Library operations on rasters and stores -/

/-- The product of two C `int`s as the machine computes it: the exact
product wrapped to 32 bits, two's complement. -/
def int_mul (a b : Int) : Int :=
  (a * b + 2147483648) % 4294967296 - 2147483648

/-- A pure read of one cell of a store. -/
def segment_get {α : Type} (seg : SEGMENT α) (row col : Nat) : α :=
  seg.data row col

/-- Flushing writes dirty pages to disk; the content is unchanged. -/
def segment_flush {α : Type} (seg : SEGMENT α) : SEGMENT α := seg

/-- Modelled from the spec: the FLAG_GET macro of flag.h (not in the sources
at hand), the query of one pixel of a flag set. -/
def FLAG_GET (fl : FLAG) (row col : Nat) : Bool := fl.bits row col

/-- A zero-filled CELL row buffer. -/
def Rast_allocate_c_buf (cols : Nat) : List CELL := List.replicate cols 0

/-- A zero-filled DCELL row buffer. -/
def Rast_allocate_d_buf (cols : Nat) : List DCELL := List.replicate cols 0

/-- Sets the first `n` cells of a CELL buffer to null. -/
def Rast_set_c_null_value (buf : List CELL) (n : Nat) : List CELL :=
  List.replicate (min n buf.length) c_null ++ buf.drop n

/-- Sets the first `n` cells of a DCELL buffer to null. -/
def Rast_set_d_null_value (buf : List DCELL) (n : Nat) : List DCELL :=
  List.replicate (min n buf.length) d_null ++ buf.drop n

/-- Modelled from the spec: the failure behaviour of the raster library (not
in the sources at hand).  One library call: a failure is fatal and ends the
run at that call; on success the call joins the trace. -/
def lib_call (lib : RasterLib) (e : Event) (s : St) : St × Option Status :=
  if lib.fails s.trace e then (s, some (Status.fatal e))
  else ({ s with trace := s.trace ++ [e] }, none)

/-- Sequencing: the next statement runs only if the run has not ended. -/
def and_then (r : St × Option Status) (k : St → St × Option Status) :
    St × Option Status :=
  match r.2 with
  | none => k r.1
  | some st => (r.1, some st)

/-! ## write_output -/

/-- The body of the column loop (lines 42-47) at one `(row, col)`. -/
def col_body (row col : Nat) (s : St) : St :=
  let f1 : files :=
    { s.files with
      bands_val := { s.files.bands_val with val := segment_get s.files.bands_seg row col } }
  let s1 : St := { s with files := f1, band_reads := s.band_reads + 1 }
  if !(FLAG_GET s1.files.null_flag row col) then
    { s1 with
      outbuf := s1.outbuf.set col (segment_get s1.files.iseg_seg row col)
      meanbuf := s1.meanbuf.set col s1.files.bands_val.val.first }
  else s1

/-- The column loop (line 41): `k` iterations are left, starting at `col`. -/
def col_loop (row : Nat) : Nat → Nat → St → St
  | 0, _, s => s
  | k + 1, col, s => col_loop row k (col + 1) (col_body row col s)

/-- Lines 39-48: both buffers set to null, then the column loop. -/
def scan_row (row : Nat) (s : St) : St :=
  let n := s.files.ncols.toNat
  col_loop row n 0
    { s with
      outbuf := Rast_set_c_null_value s.outbuf n
      meanbuf := Rast_set_d_null_value s.meanbuf n }

/-- Lines 50-51: the mean row is written only if `out_band` is not NULL;
using `mean_fd` while it is uninitialised is undefined. -/
def put_mean_row (lib : RasterLib) (s : St) : St × Option Status :=
  if s.files.out_band ≠ none then
    match s.mean_fd with
    | some fd => lib_call lib (Event.put_row_d fd s.meanbuf) s
    | none => (s, some Status.undefined)
  else (s, none)

/-- The body of the row loop (lines 39-53). -/
def row_body (lib : RasterLib) (out_fd : Fd) (row : Nat) (s : St) :
    St × Option Status :=
  let s1 := scan_row row s
  and_then (lib_call lib (Event.put_row_c out_fd s1.outbuf) s1) (put_mean_row lib)

/-- The row loop (line 38): `k` iterations are left, starting at `row`. -/
def row_loop (lib : RasterLib) (out_fd : Fd) : Nat → Nat → St → St × Option Status
  | 0, _, s => (s, none)
  | k + 1, row, s =>
    and_then (row_body lib out_fd row s) (row_loop lib out_fd k (row + 1))

/-- Lines 34-35: the mean raster is opened only if `out_band` is not NULL. -/
def open_mean (lib : RasterLib) (s : St) : St × Option Status :=
  match s.files.out_band with
  | some name =>
    and_then (lib_call lib (Event.open_new name RASTER_MAP_TYPE.DCELL_TYPE) s)
      (fun s1 => ({ s1 with mean_fd := some ⟨name, RASTER_MAP_TYPE.DCELL_TYPE⟩ }, none))
  | none => (s, none)

/-- Lines 58-59: the mean raster is closed only if `out_band` is not NULL. -/
def close_mean (lib : RasterLib) (s : St) : St × Option Status :=
  if s.files.out_band ≠ none then
    match s.mean_fd with
    | some fd => lib_call lib (Event.close fd) s
    | none => (s, some Status.undefined)
  else (s, none)

/-- Lines 62-64: the random color table over `1 .. nrows * ncols`, written
for the output raster; the bound is a product of two C ints. -/
def set_colors (lib : RasterLib) (s : St) : St × Option Status :=
  lib_call lib (Event.write_colors s.files.out_name 1 (int_mul s.files.nrows s.files.ncols)) s

/-- Lines 69-71: the history record of the output raster. -/
def set_history (lib : RasterLib) (s : St) : St × Option Status :=
  lib_call lib (Event.write_history s.files.out_name) s

/-- The state after lines 24-29: buffers allocated, both stores flushed. -/
def init_state (f : files) : St :=
  { files :=
      { f with
        bands_seg := segment_flush f.bands_seg
        iseg_seg := segment_flush f.iseg_seg }
    mean_fd := none
    outbuf := Rast_allocate_c_buf f.ncols.toNat
    meanbuf := Rast_allocate_d_buf f.ncols.toNat
    trace := []
    band_reads := 0 }

/-- The statements of `write_output` up to the last library call. -/
def write_output_run (lib : RasterLib) (f : files) : St × Option Status :=
  let out_fd : Fd := ⟨f.out_name, RASTER_MAP_TYPE.CELL_TYPE⟩
  and_then (lib_call lib (Event.open_new f.out_name RASTER_MAP_TYPE.CELL_TYPE) (init_state f))
    fun s =>
  and_then (open_mean lib s) fun s =>
  and_then (row_loop lib out_fd s.files.nrows.toNat 0 s) fun s =>
  and_then (lib_call lib (Event.close out_fd) s) fun s =>
  and_then (close_mean lib s) fun s =>
  and_then (set_colors lib s) fun s =>
  set_history lib s

/-- The function `write_output`: it returns TRUE unless the run ended before. -/
def write_output (lib : RasterLib) (f : files) : Outcome :=
  let r := write_output_run lib f
  { files := r.1.files
    trace := r.1.trace
    band_reads := r.1.band_reads
    status := r.2.getD (Status.returned 1) }

/-! ## Reading a trace -/

/-- The rows written to a CELL raster, in order. -/
def label_rows (tr : List Event) : List (List CELL) :=
  tr.filterMap fun e =>
    match e with
    | Event.put_row_c _ buf => some buf
    | _ => none

/-- The rows written to a DCELL raster, in order. -/
def mean_rows (tr : List Event) : List (List DCELL) :=
  tr.filterMap fun e =>
    match e with
    | Event.put_row_d _ buf => some buf
    | _ => none

/-- A library in which no call fails. -/
def lib_ok : RasterLib := ⟨fun _ _ => false⟩

/-! ## The scenario of the specification -/

/-- A grid given by its rows; cells outside it read `d`. -/
def grid {α : Type} (d : α) (rows : List (List α)) (row col : Nat) : α :=
  (rows.getD row []).getD col d

/-- The double 5.0. -/
def d5 : DCELL := 0x4014000000000000

/-- The double 9.0. -/
def d9 : DCELL := 0x4022000000000000

/-- The 2x2 scenario: labels `[[1,1],[2,2]]`, band values `[[5,5],[9,9]]`,
pixel (0,1) excluded; `out_band` is left to the caller. -/
def scenario (out_band : Option String) : files :=
  { nrows := 2
    ncols := 2
    out_name := "seg"
    out_band := out_band
    bounds_map := none
    bands_seg := ⟨true, grid ⟨0, []⟩ [[⟨d5, []⟩, ⟨d5, []⟩], [⟨d9, []⟩, ⟨d9, []⟩]]⟩
    bounds_seg := ⟨false, fun _ _ => 0⟩
    bands_val := ⟨Ptr.live, ⟨0, []⟩⟩
    second_val := ⟨Ptr.live, ⟨0, []⟩⟩
    iseg_seg := ⟨true, grid 0 [[1, 1], [2, 2]]⟩
    candidate_flag := ⟨Ptr.live, fun _ _ => false⟩
    null_flag := ⟨Ptr.live, grid false [[false, true], [false, false]]⟩
    seeds_flag := ⟨Ptr.live, fun _ _ => false⟩
    token := Ptr.live }

/-! ## What a run writes, in closed form -/

/-- The context with the content of the scratch buffer `bands_val` replaced. -/
def set_val (f : files) (v : BandCell) : files :=
  { f with bands_val := { f.bands_val with val := v } }

/-- The label cell of a pixel: null if excluded, the stored label otherwise. -/
def label_cell (f : files) (row col : Nat) : CELL :=
  if FLAG_GET f.null_flag row col then c_null else f.iseg_seg.data row col

/-- The mean cell of a pixel: null if excluded, the first band value otherwise. -/
def mean_cell (f : files) (row col : Nat) : DCELL :=
  if FLAG_GET f.null_flag row col then d_null else (f.bands_seg.data row col).first

/-- The label row of a raster row. -/
def label_row (f : files) (row : Nat) : List CELL :=
  (List.range f.ncols.toNat).map (label_cell f row)

/-- The mean row of a raster row. -/
def mean_row (f : files) (row : Nat) : List DCELL :=
  (List.range f.ncols.toNat).map (mean_cell f row)

/-- The descriptor of the label raster. -/
def out_fd (f : files) : Fd := ⟨f.out_name, RASTER_MAP_TYPE.CELL_TYPE⟩

/-- The library calls of one row. -/
def row_events (f : files) (row : Nat) : List Event :=
  Event.put_row_c (out_fd f) (label_row f row) ::
    (match f.out_band with
     | some name => [Event.put_row_d ⟨name, RASTER_MAP_TYPE.DCELL_TYPE⟩ (mean_row f row)]
     | none => [])

/-- The library calls of `k` rows starting at `row`. -/
def events_from (f : files) : Nat → Nat → List Event
  | 0, _ => []
  | k + 1, row => row_events f row ++ events_from f k (row + 1)

/-- The calls on the mean raster before and after the rows. -/
def mean_open_events (f : files) : List Event :=
  match f.out_band with
  | some name => [Event.open_new name RASTER_MAP_TYPE.DCELL_TYPE]
  | none => []

/-- The close call on the mean raster. -/
def mean_close_events (f : files) : List Event :=
  match f.out_band with
  | some name => [Event.close ⟨name, RASTER_MAP_TYPE.DCELL_TYPE⟩]
  | none => []

/-- The calls after the row loop. -/
def tail_events (f : files) : List Event :=
  [Event.close (out_fd f)] ++ mean_close_events f ++
    [Event.write_colors f.out_name 1 (int_mul f.nrows f.ncols), Event.write_history f.out_name]

/-- Every library call of a run in which no call fails, in order. -/
def full_trace (f : files) : List Event :=
  [Event.open_new f.out_name RASTER_MAP_TYPE.CELL_TYPE] ++ mean_open_events f ++
    events_from f f.nrows.toNat 0 ++ tail_events f

/-- The calls of a list made one after the other until one fails. -/
def attempt (lib : RasterLib) : List Event → List Event → List Event × Option Status
  | tr, [] => (tr, none)
  | tr, e :: es =>
    if lib.fails tr e then (tr, some (Status.fatal e)) else attempt lib (tr ++ [e]) es

/-- The value of `mean_fd` once line 35 has run. -/
def mean_fd_of (f : files) : Option Fd :=
  f.out_band.map fun name => ⟨name, RASTER_MAP_TYPE.DCELL_TYPE⟩

/-- The invariant of the run: buffers of `ncols` cells, a context that
differs from the initial one in the scratch content only, `mean_fd` set. -/
def Good (f : files) (s : St) : Prop :=
  s.outbuf.length = f.ncols.toNat ∧ s.meanbuf.length = f.ncols.toNat ∧
    (∃ v, s.files = set_val f v) ∧ s.mean_fd = mean_fd_of f

/-- The last band cell fetched by a scan of `k` rows up to `row`, or `v`. -/
def last_val (f : files) (v : BandCell) (k row : Nat) : BandCell :=
  if k = 0 ∨ f.ncols.toNat = 0 then v else f.bands_seg.data (row + k - 1) (f.ncols.toNat - 1)

/-- A statement sequence `P` that, from a good state, makes the calls `evs`
until one fails, keeps the state good, and on success has read the band store
`reads` times and changed the scratch content by `upd`. -/
def Phase (lib : RasterLib) (f : files) (evs : List Event) (reads : Nat)
    (upd : BandCell → BandCell) (P : St → St × Option Status) : Prop :=
  ∀ s, Good f s →
    Good f (P s).1 ∧
    ((P s).1.trace, (P s).2) = attempt lib s.trace evs ∧
    ((P s).2 = none →
      (P s).1.band_reads = s.band_reads + reads ∧
      (P s).1.files.bands_val.val = upd s.files.bands_val.val)

/-- Lines 38-71: the row loop, the closes, the color table and the history. -/
def rows_and_after (lib : RasterLib) (f : files) (s : St) : St × Option Status :=
  and_then (row_loop lib (out_fd f) s.files.nrows.toNat 0 s) fun s =>
  and_then (lib_call lib (Event.close (out_fd f)) s) fun s =>
  and_then (close_mean lib s) fun s =>
  and_then (set_colors lib s) fun s =>
  set_history lib s

/-- What holds of every run of `write_output`. -/
structure RunSpec (lib : RasterLib) (f : files) (r : St × Option Status) : Prop where
  files_eq : ∃ v, r.1.files = set_val f v
  trace_eq : (r.1.trace, r.2) = attempt lib [] (full_trace f)
  on_success : r.2 = none →
    r.1.band_reads = f.nrows.toNat * f.ncols.toNat ∧
    r.1.files.bands_val.val = last_val f f.bands_val.val f.nrows.toNat 0

/-! ## close_files -/

/-- The segment stores of the context, by member. -/
inductive Seg where
  | bands_seg
  | bounds_seg
  | iseg_seg
deriving DecidableEq, Repr

/-- The scratch buffers of the context, by member. -/
inductive Buf where
  | bands_val
  | second_val
deriving DecidableEq, Repr

/-- The flag sets of the context, by member. -/
inductive Flg where
  | null_flag
  | candidate_flag
  | seeds_flag
deriving DecidableEq, Repr

/-- The release calls that `close_files` makes. -/
inductive Release where
  | segment_close (s : Seg)
  | G_free (b : Buf)
  | flag_destroy (fl : Flg)
  | link_cleanup
deriving DecidableEq, Repr

/-- `segment_close` of the segment library: an open store is released and 1
returned; a store that is not open is left as it is and -1 returned. -/
def segment_close {α : Type} (seg : SEGMENT α) : SEGMENT α × Int :=
  if seg.is_open then ({ seg with is_open := false }, 1) else (seg, -1)

/-- `G_free`, the library's wrapper of C `free`: nothing for NULL, the block
is released for a live pointer, and undefined (`none`) for a pointer that was
already freed. -/
def G_free (p : Ptr) : Option Ptr :=
  match p with
  | Ptr.null => some Ptr.null
  | Ptr.live => some Ptr.freed
  | Ptr.freed => none

/-- Modelled from the spec: `flag_destroy` of the flag-set code (not in the
sources at hand).  It destroys a flag set; on a set that is already destroyed
(or was never created) it is a no-op. -/
def flag_destroy (fl : FLAG) : FLAG :=
  match fl.ptr with
  | Ptr.live => { fl with ptr := Ptr.freed }
  | _ => fl

/-- `link_cleanup` of the linked-list library: nothing for NULL, the token is
read and freed for a live pointer, undefined (`none`) for a pointer that was
already freed. -/
def link_cleanup (p : Ptr) : Option Ptr :=
  match p with
  | Ptr.null => some Ptr.null
  | Ptr.live => some Ptr.freed
  | Ptr.freed => none

/-- The state of `close_files` between two statements: the context and the
release calls completed so far. -/
structure CSt where
  files : files
  calls : List Release

/-- What a run of `close_files` leaves behind. -/
structure CloseOutcome where
  files : files
  calls : List Release
  status : Status

/-- Sequencing in `close_files`. -/
def then_close (r : CSt × Option Status) (k : CSt → CSt × Option Status) :
    CSt × Option Status :=
  match r.2 with
  | none => k r.1
  | some st => (r.1, some st)

/-- Line 86: `segment_close(&files->bands_seg)`; the result is ignored. -/
def close_bands_seg (s : CSt) : CSt × Option Status :=
  ({ files := { s.files with bands_seg := (segment_close s.files.bands_seg).1 }
     calls := s.calls ++ [Release.segment_close Seg.bands_seg] }, none)

/-- Lines 88-89: the boundary store is closed only if `bounds_map` is not NULL. -/
def close_bounds_seg (s : CSt) : CSt × Option Status :=
  if s.files.bounds_map ≠ none then
    ({ files := { s.files with bounds_seg := (segment_close s.files.bounds_seg).1 }
       calls := s.calls ++ [Release.segment_close Seg.bounds_seg] }, none)
  else (s, none)

/-- Line 92: `G_free(files->bands_val)`; the member keeps its value. -/
def free_bands_val (s : CSt) : CSt × Option Status :=
  match G_free s.files.bands_val.ptr with
  | some p =>
    ({ files := { s.files with bands_val := { s.files.bands_val with ptr := p } }
       calls := s.calls ++ [Release.G_free Buf.bands_val] }, none)
  | none => (s, some Status.undefined)

/-- Line 93: `G_free(files->second_val)`. -/
def free_second_val (s : CSt) : CSt × Option Status :=
  match G_free s.files.second_val.ptr with
  | some p =>
    ({ files := { s.files with second_val := { s.files.second_val with ptr := p } }
       calls := s.calls ++ [Release.G_free Buf.second_val] }, none)
  | none => (s, some Status.undefined)

/-- Line 96: `segment_close(&files->iseg_seg)`. -/
def close_iseg_seg (s : CSt) : CSt × Option Status :=
  ({ files := { s.files with iseg_seg := (segment_close s.files.iseg_seg).1 }
     calls := s.calls ++ [Release.segment_close Seg.iseg_seg] }, none)

/-- Line 99: `flag_destroy(files->null_flag)`. -/
def destroy_null_flag (s : CSt) : CSt × Option Status :=
  ({ files := { s.files with null_flag := flag_destroy s.files.null_flag }
     calls := s.calls ++ [Release.flag_destroy Flg.null_flag] }, none)

/-- Line 100: `flag_destroy(files->candidate_flag)`. -/
def destroy_candidate_flag (s : CSt) : CSt × Option Status :=
  ({ files := { s.files with candidate_flag := flag_destroy s.files.candidate_flag }
     calls := s.calls ++ [Release.flag_destroy Flg.candidate_flag] }, none)

/-- Line 101: `flag_destroy(files->seeds_flag)`. -/
def destroy_seeds_flag (s : CSt) : CSt × Option Status :=
  ({ files := { s.files with seeds_flag := flag_destroy s.files.seeds_flag }
     calls := s.calls ++ [Release.flag_destroy Flg.seeds_flag] }, none)

/-- Line 104: `link_cleanup(files->token)`. -/
def cleanup_token (s : CSt) : CSt × Option Status :=
  match link_cleanup s.files.token with
  | some p =>
    ({ files := { s.files with token := p }
       calls := s.calls ++ [Release.link_cleanup] }, none)
  | none => (s, some Status.undefined)

/-- The statements of `close_files`, in source order. -/
def close_files_run (f : files) : CSt × Option Status :=
  then_close (close_bands_seg ⟨f, []⟩) fun s =>
  then_close (close_bounds_seg s) fun s =>
  then_close (free_bands_val s) fun s =>
  then_close (free_second_val s) fun s =>
  then_close (close_iseg_seg s) fun s =>
  then_close (destroy_null_flag s) fun s =>
  then_close (destroy_candidate_flag s) fun s =>
  then_close (destroy_seeds_flag s) fun s =>
  cleanup_token s

/-- The function `close_files`: it returns TRUE unless the run ended before. -/
def close_files (f : files) : CloseOutcome :=
  let r := close_files_run f
  { files := r.1.files
    calls := r.1.calls
    status := r.2.getD (Status.returned 1) }

/-- A context before teardown: the stores it uses are open and its pointers
are live. -/
def live (f : files) : Prop :=
  f.bands_seg.is_open = true ∧ f.iseg_seg.is_open = true ∧
    (f.bounds_map ≠ none → f.bounds_seg.is_open = true) ∧
    f.bands_val.ptr = Ptr.live ∧ f.second_val.ptr = Ptr.live ∧
    f.null_flag.ptr = Ptr.live ∧ f.candidate_flag.ptr = Ptr.live ∧
    f.seeds_flag.ptr = Ptr.live ∧ f.token = Ptr.live

instance (f : files) : Decidable (live f) := by
  unfold live; infer_instance

/-- The release calls on the resources that the context owns or delegates:
the boundary store belongs to them only if a boundary map is configured. -/
def owned (f : files) : List Release :=
  [Release.segment_close Seg.bands_seg, Release.G_free Buf.bands_val,
    Release.G_free Buf.second_val, Release.segment_close Seg.iseg_seg,
    Release.flag_destroy Flg.null_flag, Release.flag_destroy Flg.candidate_flag,
    Release.flag_destroy Flg.seeds_flag, Release.link_cleanup] ++
    (if f.bounds_map ≠ none then [Release.segment_close Seg.bounds_seg] else [])

/-- A context in which every resource has been released. -/
def released (f : files) : Prop :=
  f.bands_seg.is_open = false ∧ f.iseg_seg.is_open = false ∧
    (f.bounds_map ≠ none → f.bounds_seg.is_open = false) ∧
    f.bands_val.ptr = Ptr.freed ∧ f.second_val.ptr = Ptr.freed ∧
    f.null_flag.ptr = Ptr.freed ∧ f.candidate_flag.ptr = Ptr.freed ∧
    f.seeds_flag.ptr = Ptr.freed ∧ f.token = Ptr.freed

/-! ## The variant that fetches the band cell inside the mask check -/

/-- The column body of the variant: the band cell is fetched inside the mask
check. -/
def col_body_lazy (row col : Nat) (s : St) : St :=
  if !(FLAG_GET s.files.null_flag row col) then
    let f1 : files :=
      { s.files with
        bands_val := { s.files.bands_val with val := segment_get s.files.bands_seg row col } }
    let s1 : St := { s with files := f1, band_reads := s.band_reads + 1 }
    { s1 with
      outbuf := s1.outbuf.set col (segment_get s1.files.iseg_seg row col)
      meanbuf := s1.meanbuf.set col s1.files.bands_val.val.first }
  else s

/-- The column loop of the variant. -/
def col_loop_lazy (row : Nat) : Nat → Nat → St → St
  | 0, _, s => s
  | k + 1, col, s => col_loop_lazy row k (col + 1) (col_body_lazy row col s)

/-- The row scan of the variant. -/
def scan_row_lazy (row : Nat) (s : St) : St :=
  let n := s.files.ncols.toNat
  col_loop_lazy row n 0
    { s with
      outbuf := Rast_set_c_null_value s.outbuf n
      meanbuf := Rast_set_d_null_value s.meanbuf n }

/-- The row body of the variant. -/
def row_body_lazy (lib : RasterLib) (out_fd : Fd) (row : Nat) (s : St) :
    St × Option Status :=
  let s1 := scan_row_lazy row s
  and_then (lib_call lib (Event.put_row_c out_fd s1.outbuf) s1) (put_mean_row lib)

/-- The row loop of the variant. -/
def row_loop_lazy (lib : RasterLib) (out_fd : Fd) : Nat → Nat → St → St × Option Status
  | 0, _, s => (s, none)
  | k + 1, row, s =>
    and_then (row_body_lazy lib out_fd row s) (row_loop_lazy lib out_fd k (row + 1))

/-- The statements of the variant of `write_output`. -/
def write_output_lazy_run (lib : RasterLib) (f : files) : St × Option Status :=
  let out_fd : Fd := ⟨f.out_name, RASTER_MAP_TYPE.CELL_TYPE⟩
  and_then (lib_call lib (Event.open_new f.out_name RASTER_MAP_TYPE.CELL_TYPE) (init_state f))
    fun s =>
  and_then (open_mean lib s) fun s =>
  and_then (row_loop_lazy lib out_fd s.files.nrows.toNat 0 s) fun s =>
  and_then (lib_call lib (Event.close out_fd) s) fun s =>
  and_then (close_mean lib s) fun s =>
  and_then (set_colors lib s) fun s =>
  set_history lib s

/-- The variant of `write_output`. -/
def write_output_lazy (lib : RasterLib) (f : files) : Outcome :=
  let r := write_output_lazy_run lib f
  { files := r.1.files
    trace := r.1.trace
    band_reads := r.1.band_reads
    status := r.2.getD (Status.returned 1) }

/-! ## Notions used in the proofs -/

/-- Two states that differ at most in the scratch content and the read count. -/
def Sim (s t : St) : Prop :=
  t.mean_fd = s.mean_fd ∧ t.outbuf = s.outbuf ∧ t.meanbuf = s.meanbuf ∧
    t.trace = s.trace ∧ ∃ v, t.files = set_val s.files v

/-- Two statement sequences that take similar states to similar states and
end alike. -/
def PSim (P Q : St → St × Option Status) : Prop :=
  ∀ s t, Sim s t → Sim (P s).1 (Q t).1 ∧ (P s).2 = (Q t).2

/-- A 1x1 context whose only pixel is not excluded and whose stored label
is the CELL null value. -/
def null_label_ctx : files :=
  { scenario none with
    nrows := 1
    ncols := 1
    iseg_seg := ⟨true, fun _ _ => c_null⟩
    null_flag := ⟨Ptr.live, fun _ _ => false⟩ }

/-- The raster that an open, row-write or close call touches. -/
def Event.raster : Event → Option Fd
  | Event.open_new name type => some ⟨name, type⟩
  | Event.put_row_c fd _ => some fd
  | Event.put_row_d fd _ => some fd
  | Event.close fd => some fd
  | Event.write_colors _ _ _ => none
  | Event.write_history _ => none

/-- Whether a call writes the color table or the history record. -/
def Event.is_finish : Event → Bool
  | Event.write_colors _ _ _ => true
  | Event.write_history _ => true
  | _ => false

/-- The calls of the full trace before the color table and the history. -/
def head_events (f : files) : List Event :=
  [Event.open_new f.out_name RASTER_MAP_TYPE.CELL_TYPE] ++ mean_open_events f ++
    events_from f f.nrows.toNat 0 ++ [Event.close (out_fd f)] ++ mean_close_events f

/-- The release calls after the two store closes at the head of `close_files`. -/
def tail_calls : List Release :=
  [Release.G_free Buf.bands_val, Release.G_free Buf.second_val,
    Release.segment_close Seg.iseg_seg, Release.flag_destroy Flg.null_flag,
    Release.flag_destroy Flg.candidate_flag, Release.flag_destroy Flg.seeds_flag,
    Release.link_cleanup]

/-- A release step that either stops the run and leaves the state as it is,
or completes the call `c` and leaves the boundary members as they are. -/
def Step (c : Release) (P : CSt → CSt × Option Status) : Prop :=
  ∀ s, ((P s).2 ≠ none ∧ (P s).1 = s) ∨
    ((P s).2 = none ∧ (P s).1.calls = s.calls ++ [c] ∧
      (P s).1.files.bounds_map = s.files.bounds_map ∧
      (P s).1.files.bounds_seg = s.files.bounds_seg)

/-- A sequence of release steps that completes a prefix of the calls `l` and
leaves the boundary members as they are. -/
def Steps (l : List Release) (Q : CSt → CSt × Option Status) : Prop :=
  ∀ s, ∃ cs, cs <+: l ∧ (Q s).1.calls = s.calls ++ cs ∧
    (Q s).1.files.bounds_map = s.files.bounds_map ∧
    (Q s).1.files.bounds_seg = s.files.bounds_seg

/-- Two teardown states whose contexts differ at most in the boundary
members and whose completed calls are the same after the heads `a` and `b`. -/
def CR (a b : List Release) (s t : CSt) : Prop :=
  (∃ m bs, t.files = { s.files with bounds_map := m, bounds_seg := bs }) ∧
    ∃ cs, s.calls = a ++ cs ∧ t.calls = b ++ cs

/-- A release step that takes related teardown states to related states and
ends alike on both. -/
def CSim (a b : List Release) (P : CSt → CSt × Option Status) : Prop :=
  ∀ s t, CR a b s t → CR a b (P s).1 (P t).1 ∧ (P s).2 = (P t).2

/-- Lines 92-104: the statements of `close_files` after the store closes. -/
def close_tail (s : CSt) : CSt × Option Status :=
  then_close (free_bands_val s) fun s =>
  then_close (free_second_val s) fun s =>
  then_close (close_iseg_seg s) fun s =>
  then_close (destroy_null_flag s) fun s =>
  then_close (destroy_candidate_flag s) fun s =>
  then_close (destroy_seeds_flag s) fun s =>
  cleanup_token s

/-! ## Lemmas -/

theorem int_mul_small : int_mul 2 2 = 4 ∧ int_mul 46341 46341 = -2147479015 := by
  decide

theorem col_body_files (row col : Nat) (s : St) :
    (col_body row col s).files = set_val s.files (s.files.bands_seg.data row col) := by
  unfold col_body; dsimp only; split <;> rfl

theorem col_body_outbuf (row col : Nat) (s : St) :
    (col_body row col s).outbuf =
      if FLAG_GET s.files.null_flag row col then s.outbuf
      else s.outbuf.set col (s.files.iseg_seg.data row col) := by
  unfold col_body
  cases h : FLAG_GET s.files.null_flag row col <;> simp [h, segment_get]

theorem col_body_meanbuf (row col : Nat) (s : St) :
    (col_body row col s).meanbuf =
      if FLAG_GET s.files.null_flag row col then s.meanbuf
      else s.meanbuf.set col (s.files.bands_seg.data row col).first := by
  unfold col_body
  cases h : FLAG_GET s.files.null_flag row col <;> simp [h, segment_get]

theorem col_body_rest (row col : Nat) (s : St) :
    (col_body row col s).trace = s.trace ∧ (col_body row col s).mean_fd = s.mean_fd ∧
      (col_body row col s).band_reads = s.band_reads + 1 := by
  unfold col_body; dsimp only; split <;> simp

theorem set_val_set_val (f : files) (v w : BandCell) :
    set_val (set_val f v) w = set_val f w := rfl

theorem col_loop_files (row : Nat) :
    ∀ (k col : Nat) (s : St), ∃ v, (col_loop row k col s).files = set_val s.files v := by
  intro k
  induction k with
  | zero => intro col s; exact ⟨s.files.bands_val.val, rfl⟩
  | succ k ih =>
    intro col s
    obtain ⟨v, hv⟩ := ih (col + 1) (col_body row col s)
    refine ⟨v, ?_⟩
    simp only [col_loop, hv, col_body_files, set_val_set_val]

theorem col_loop_rest (row : Nat) :
    ∀ (k col : Nat) (s : St),
      (col_loop row k col s).trace = s.trace ∧ (col_loop row k col s).mean_fd = s.mean_fd ∧
        (col_loop row k col s).band_reads = s.band_reads + k := by
  intro k
  induction k with
  | zero => intro col s; simp [col_loop]
  | succ k ih =>
    intro col s
    obtain ⟨h1, h2, h3⟩ := ih (col + 1) (col_body row col s)
    obtain ⟨g1, g2, g3⟩ := col_body_rest row col s
    simp only [col_loop, h1, h2, h3, g1, g2, g3]
    refine ⟨trivial, trivial, ?_⟩
    omega

theorem col_loop_outbuf (row : Nat) :
    ∀ (k col : Nat) (s : St) (j : Nat),
      (col_loop row k col s).outbuf[j]? =
        if col ≤ j ∧ j < col + k ∧ j < s.outbuf.length ∧
            FLAG_GET s.files.null_flag row j = false
        then some (s.files.iseg_seg.data row j) else s.outbuf[j]? := by
  intro k
  induction k with
  | zero =>
    intro col s j
    rw [if_neg]
    · rfl
    · rintro ⟨a, b, _⟩; omega
  | succ k ih =>
    intro col s j
    simp only [col_loop, ih, col_body_files, col_body_outbuf]
    have e1 : (set_val s.files (s.files.bands_seg.data row col)).null_flag
        = s.files.null_flag := rfl
    have e2 : (set_val s.files (s.files.bands_seg.data row col)).iseg_seg
        = s.files.iseg_seg := rfl
    rw [e1, e2]
    cases hc : FLAG_GET s.files.null_flag row col
    · simp only [Bool.false_eq_true, if_false, List.length_set, List.getElem?_set]
      by_cases hj : col = j
      · subst hj
        by_cases hl : col < s.outbuf.length
        · simp [hl, hc]
        · simp [hl]
          omega
      · simp only [hj, if_false]
        have : (col + 1 ≤ j ∧ j < col + 1 + k ∧ j < s.outbuf.length ∧
            FLAG_GET s.files.null_flag row j = false) ↔
            (col ≤ j ∧ j < col + (k + 1) ∧ j < s.outbuf.length ∧
            FLAG_GET s.files.null_flag row j = false) := by
          constructor
          · rintro ⟨a, b, c, d⟩; exact ⟨by omega, by omega, c, d⟩
          · rintro ⟨a, b, c, d⟩; exact ⟨by omega, by omega, c, d⟩
        simp only [this]
    · simp only [if_true]
      have : (col + 1 ≤ j ∧ j < col + 1 + k ∧ j < s.outbuf.length ∧
          FLAG_GET s.files.null_flag row j = false) ↔
          (col ≤ j ∧ j < col + (k + 1) ∧ j < s.outbuf.length ∧
          FLAG_GET s.files.null_flag row j = false) := by
        constructor
        · rintro ⟨a, b, c, d⟩; exact ⟨by omega, by omega, c, d⟩
        · rintro ⟨a, b, c, d⟩
          refine ⟨?_, by omega, c, d⟩
          by_contra hlt
          have : col = j := by omega
          subst this
          rw [hc] at d
          exact Bool.noConfusion d
      simp only [this]

theorem col_loop_meanbuf (row : Nat) :
    ∀ (k col : Nat) (s : St) (j : Nat),
      (col_loop row k col s).meanbuf[j]? =
        if col ≤ j ∧ j < col + k ∧ j < s.meanbuf.length ∧
            FLAG_GET s.files.null_flag row j = false
        then some (s.files.bands_seg.data row j).first else s.meanbuf[j]? := by
  intro k
  induction k with
  | zero =>
    intro col s j
    rw [if_neg]
    · rfl
    · rintro ⟨a, b, _⟩; omega
  | succ k ih =>
    intro col s j
    simp only [col_loop, ih, col_body_files, col_body_meanbuf]
    have e1 : (set_val s.files (s.files.bands_seg.data row col)).null_flag
        = s.files.null_flag := rfl
    have e2 : (set_val s.files (s.files.bands_seg.data row col)).bands_seg
        = s.files.bands_seg := rfl
    rw [e1, e2]
    cases hc : FLAG_GET s.files.null_flag row col
    · simp only [Bool.false_eq_true, if_false, List.length_set, List.getElem?_set]
      by_cases hj : col = j
      · subst hj
        by_cases hl : col < s.meanbuf.length
        · simp [hl, hc]
        · simp [hl]
          omega
      · simp only [hj, if_false]
        have : (col + 1 ≤ j ∧ j < col + 1 + k ∧ j < s.meanbuf.length ∧
            FLAG_GET s.files.null_flag row j = false) ↔
            (col ≤ j ∧ j < col + (k + 1) ∧ j < s.meanbuf.length ∧
            FLAG_GET s.files.null_flag row j = false) := by
          constructor
          · rintro ⟨a, b, c, d⟩; exact ⟨by omega, by omega, c, d⟩
          · rintro ⟨a, b, c, d⟩; exact ⟨by omega, by omega, c, d⟩
        simp only [this]
    · simp only [if_true]
      have : (col + 1 ≤ j ∧ j < col + 1 + k ∧ j < s.meanbuf.length ∧
          FLAG_GET s.files.null_flag row j = false) ↔
          (col ≤ j ∧ j < col + (k + 1) ∧ j < s.meanbuf.length ∧
          FLAG_GET s.files.null_flag row j = false) := by
        constructor
        · rintro ⟨a, b, c, d⟩; exact ⟨by omega, by omega, c, d⟩
        · rintro ⟨a, b, c, d⟩
          refine ⟨?_, by omega, c, d⟩
          by_contra hlt
          have : col = j := by omega
          subst this
          rw [hc] at d
          exact Bool.noConfusion d
      simp only [this]

theorem col_loop_val (row : Nat) :
    ∀ (k col : Nat) (s : St),
      (col_loop row k col s).files =
        set_val s.files
          (if k = 0 then s.files.bands_val.val else s.files.bands_seg.data row (col + k - 1)) := by
  intro k
  induction k with
  | zero => intro col s; rfl
  | succ k ih =>
    intro col s
    simp only [col_loop, ih, col_body_files, set_val_set_val]
    have e3 : (set_val s.files (s.files.bands_seg.data row col)).bands_seg
        = s.files.bands_seg := rfl
    have e4 : (set_val s.files (s.files.bands_seg.data row col)).bands_val.val
        = s.files.bands_seg.data row col := rfl
    rw [e3, e4]
    by_cases hk : k = 0
    · subst hk; simp
    · have : col + 1 + k - 1 = col + (k + 1) - 1 := by omega
      simp [hk, this]

theorem null_c_of_length (buf : List CELL) (n : Nat) (h : buf.length = n) :
    Rast_set_c_null_value buf n = List.replicate n c_null := by
  unfold Rast_set_c_null_value
  rw [h, Nat.min_self, List.drop_of_length_le (by omega), List.append_nil]

theorem null_d_of_length (buf : List DCELL) (n : Nat) (h : buf.length = n) :
    Rast_set_d_null_value buf n = List.replicate n d_null := by
  unfold Rast_set_d_null_value
  rw [h, Nat.min_self, List.drop_of_length_le (by omega), List.append_nil]

theorem scan_row_spec (f : files) (row : Nat) (s : St)
    (h1 : s.outbuf.length = f.ncols.toNat) (h2 : s.meanbuf.length = f.ncols.toNat)
    (h3 : ∃ v, s.files = set_val f v) :
    (scan_row row s).outbuf = label_row f row ∧
      (scan_row row s).meanbuf = mean_row f row ∧
      (scan_row row s).files = set_val f (last_val f s.files.bands_val.val 1 row) ∧
      (scan_row row s).trace = s.trace ∧ (scan_row row s).mean_fd = s.mean_fd ∧
      (scan_row row s).band_reads = s.band_reads + f.ncols.toNat := by
  obtain ⟨v, hv⟩ := h3
  have hn : s.files.ncols = f.ncols := by rw [hv]; rfl
  have hnull : s.files.null_flag = f.null_flag := by rw [hv]; rfl
  have hiseg : s.files.iseg_seg = f.iseg_seg := by rw [hv]; rfl
  have hbands : s.files.bands_seg = f.bands_seg := by rw [hv]; rfl
  unfold scan_row
  simp only [hn]
  rw [null_c_of_length _ _ h1, null_d_of_length _ _ h2]
  refine ⟨?_, ?_, ?_, ?_⟩
  · apply List.ext_getElem?
    intro j
    rw [col_loop_outbuf]
    simp only [label_row, List.getElem?_map, List.length_replicate, hnull, hiseg,
      List.getElem?_replicate]
    by_cases hj : j < f.ncols.toNat
    · rw [List.getElem?_range hj]
      cases hc : FLAG_GET f.null_flag row j <;> simp [hj, label_cell, hc]
    · have : (List.range f.ncols.toNat)[j]? = none := by
        rw [List.getElem?_eq_none]; simpa using hj
      rw [this]
      simp [hj]
  · apply List.ext_getElem?
    intro j
    rw [col_loop_meanbuf]
    simp only [mean_row, List.getElem?_map, List.length_replicate, hnull, hbands,
      List.getElem?_replicate]
    by_cases hj : j < f.ncols.toNat
    · rw [List.getElem?_range hj]
      cases hc : FLAG_GET f.null_flag row j <;> simp [hj, mean_cell, hc]
    · have : (List.range f.ncols.toNat)[j]? = none := by
        rw [List.getElem?_eq_none]; simpa using hj
      rw [this]
      simp [hj]
  · rw [col_loop_val]
    simp only [hbands, hv, set_val_set_val, last_val]
    have e : (set_val f v).bands_val.val = v := rfl
    have e5 : (set_val f v).bands_seg = f.bands_seg := rfl
    rw [e, e5]
    by_cases h0 : f.ncols.toNat = 0
    · simp [h0]
    · have : 0 + f.ncols.toNat - 1 = f.ncols.toNat - 1 := by omega
      simp [h0, this]
  · obtain ⟨g1, g2, g3⟩ := col_loop_rest row f.ncols.toNat 0
      { s with
        outbuf := List.replicate f.ncols.toNat c_null
        meanbuf := List.replicate f.ncols.toNat d_null }
    exact ⟨g1, g2, g3⟩

theorem attempt_append (lib : RasterLib) :
    ∀ (e1 e2 : List Event) (tr : List Event),
      attempt lib tr (e1 ++ e2) =
        match (attempt lib tr e1).2 with
        | none => attempt lib (attempt lib tr e1).1 e2
        | some st => ((attempt lib tr e1).1, some st) := by
  intro e1
  induction e1 with
  | nil => intro e2 tr; rfl
  | cons e es ih =>
    intro e2 tr
    simp only [List.cons_append, attempt]
    by_cases h : lib.fails tr e = true
    · simp [h]
    · simp only [h, if_false, Bool.false_eq_true]
      exact ih e2 (tr ++ [e])

theorem and_then_none {r : St × Option Status} (k : St → St × Option Status)
    (h : r.2 = none) : and_then r k = k r.1 := by
  unfold and_then; rw [h]

theorem and_then_some {r : St × Option Status} (k : St → St × Option Status)
    {st : Status} (h : r.2 = some st) : and_then r k = (r.1, some st) := by
  unfold and_then; rw [h]

theorem phase_seq {lib : RasterLib} {f : files} {e1 e2 : List Event} {r1 r2 : Nat}
    {u1 u2 : BandCell → BandCell} {P1 P2 : St → St × Option Status}
    (h1 : Phase lib f e1 r1 u1 P1) (h2 : Phase lib f e2 r2 u2 P2) :
    Phase lib f (e1 ++ e2) (r1 + r2) (fun v => u2 (u1 v)) (fun s => and_then (P1 s) P2) := by
  intro s hs
  obtain ⟨g1, t1, c1⟩ := h1 s hs
  have ta : (attempt lib s.trace e1).1 = (P1 s).1.trace := by rw [← t1]
  have tb : (attempt lib s.trace e1).2 = (P1 s).2 := by rw [← t1]
  rw [attempt_append, ta, tb]
  dsimp only
  cases hst : (P1 s).2 with
  | none =>
    rw [and_then_none P2 hst]
    obtain ⟨g2, t2, c2⟩ := h2 (P1 s).1 g1
    obtain ⟨c1a, c1b⟩ := c1 hst
    refine ⟨g2, t2, ?_⟩
    intro hn
    obtain ⟨c2a, c2b⟩ := c2 hn
    refine ⟨?_, ?_⟩
    · rw [c2a, c1a]; omega
    · rw [c2b, c1b]
  | some st =>
    rw [and_then_some P2 hst]
    refine ⟨g1, rfl, ?_⟩
    intro hn
    exact Option.noConfusion hn

theorem lib_call_fail {lib : RasterLib} {e : Event} {s : St}
    (h : lib.fails s.trace e = true) : lib_call lib e s = (s, some (Status.fatal e)) := by
  unfold lib_call; rw [if_pos h]

theorem lib_call_pass {lib : RasterLib} {e : Event} {s : St}
    (h : ¬ lib.fails s.trace e = true) :
    lib_call lib e s = ({ s with trace := s.trace ++ [e] }, none) := by
  unfold lib_call; rw [if_neg h]

theorem attempt_fail {lib : RasterLib} {e : Event} {tr : List Event} (es : List Event)
    (h : lib.fails tr e = true) : attempt lib tr (e :: es) = (tr, some (Status.fatal e)) := by
  simp only [attempt]; rw [if_pos h]

theorem attempt_pass {lib : RasterLib} {e : Event} {tr : List Event} (es : List Event)
    (h : ¬ lib.fails tr e = true) : attempt lib tr (e :: es) = attempt lib (tr ++ [e]) es := by
  simp only [attempt]; rw [if_neg h]

theorem attempt_nil (lib : RasterLib) (tr : List Event) : attempt lib tr [] = (tr, none) := rfl

theorem phase_lib_call (lib : RasterLib) (f : files) (e : Event) :
    Phase lib f [e] 0 (fun v => v) (lib_call lib e) := by
  intro s hs
  by_cases h : lib.fails s.trace e = true
  · rw [lib_call_fail h, attempt_fail _ h]
    exact ⟨hs, rfl, fun hn => Option.noConfusion hn⟩
  · rw [lib_call_pass h, attempt_pass _ h, attempt_nil]
    exact ⟨hs, rfl, fun _ => ⟨rfl, rfl⟩⟩

theorem good_out_band {f : files} {s : St} (hs : Good f s) :
    s.files.out_band = f.out_band ∧ s.files.out_name = f.out_name ∧
      s.files.nrows = f.nrows ∧ s.files.ncols = f.ncols := by
  obtain ⟨_, _, ⟨v, hv⟩, _⟩ := hs
  rw [hv]
  exact ⟨rfl, rfl, rfl, rfl⟩

theorem phase_skip (lib : RasterLib) (f : files) :
    Phase lib f [] 0 (fun v => v) (fun s => (s, none)) := by
  intro s hs
  exact ⟨hs, rfl, fun _ => ⟨rfl, rfl⟩⟩

theorem phase_close_mean (lib : RasterLib) (f : files) :
    Phase lib f (mean_close_events f) 0 (fun v => v) (close_mean lib) := by
  intro s hs
  have hob := (good_out_band hs).1
  have hfd := hs.2.2.2
  unfold close_mean mean_close_events
  rw [hob, hfd]
  cases hb : f.out_band with
  | none =>
    rw [if_neg (by simp)]
    exact phase_skip lib f s hs
  | some name =>
    rw [if_pos (by simp)]
    have : mean_fd_of f = some ⟨name, RASTER_MAP_TYPE.DCELL_TYPE⟩ := by
      unfold mean_fd_of; rw [hb]; rfl
    rw [this]
    exact phase_lib_call lib f _ s hs

theorem phase_set_colors (lib : RasterLib) (f : files) :
    Phase lib f [Event.write_colors f.out_name 1 (int_mul f.nrows f.ncols)] 0 (fun v => v)
      (set_colors lib) := by
  intro s hs
  obtain ⟨h1, h2, h3, h4⟩ := good_out_band hs
  unfold set_colors
  rw [h2, h3, h4]
  exact phase_lib_call lib f _ s hs

theorem phase_set_history (lib : RasterLib) (f : files) :
    Phase lib f [Event.write_history f.out_name] 0 (fun v => v) (set_history lib) := by
  intro s hs
  obtain ⟨h1, h2, h3, h4⟩ := good_out_band hs
  unfold set_history
  rw [h2]
  exact phase_lib_call lib f _ s hs

theorem put_mean_row_spec (lib : RasterLib) (f : files) (row : Nat) (s : St)
    (hs : Good f s) (hm : s.meanbuf = mean_row f row) :
    Good f (put_mean_row lib s).1 ∧
      ((put_mean_row lib s).1.trace, (put_mean_row lib s).2) =
        attempt lib s.trace
          (match f.out_band with
           | some name => [Event.put_row_d ⟨name, RASTER_MAP_TYPE.DCELL_TYPE⟩ (mean_row f row)]
           | none => []) ∧
      ((put_mean_row lib s).2 = none →
        (put_mean_row lib s).1.band_reads = s.band_reads ∧
        (put_mean_row lib s).1.files = s.files) := by
  have hob := (good_out_band hs).1
  have hfd := hs.2.2.2
  unfold put_mean_row
  rw [hob, hfd, hm]
  cases hb : f.out_band with
  | none =>
    rw [if_neg (by simp)]
    exact ⟨hs, rfl, fun _ => ⟨rfl, rfl⟩⟩
  | some name =>
    rw [if_pos (by simp)]
    have : mean_fd_of f = some ⟨name, RASTER_MAP_TYPE.DCELL_TYPE⟩ := by
      unfold mean_fd_of; rw [hb]; rfl
    rw [this]
    dsimp only
    by_cases h : lib.fails s.trace
        (Event.put_row_d ⟨name, RASTER_MAP_TYPE.DCELL_TYPE⟩ (mean_row f row)) = true
    · rw [lib_call_fail h, attempt_fail _ h]
      exact ⟨hs, rfl, fun hn => Option.noConfusion hn⟩
    · rw [lib_call_pass h, attempt_pass _ h, attempt_nil]
      exact ⟨hs, rfl, fun _ => ⟨rfl, rfl⟩⟩

theorem phase_row_body (lib : RasterLib) (f : files) (row : Nat) :
    Phase lib f (row_events f row) f.ncols.toNat (fun v => last_val f v 1 row)
      (row_body lib (out_fd f) row) := by
  intro s hs
  obtain ⟨a1, a2, a3, a4, a5, a6⟩ := scan_row_spec f row s hs.1 hs.2.1 hs.2.2.1
  have hs1 : Good f (scan_row row s) := by
    refine ⟨?_, ?_, ⟨_, a3⟩, ?_⟩
    · rw [a1]; simp [label_row]
    · rw [a2]; simp [mean_row]
    · rw [a5]; exact hs.2.2.2
  have hval : (scan_row row s).files.bands_val.val = last_val f s.files.bands_val.val 1 row := by
    rw [a3]; rfl
  unfold row_body row_events
  dsimp only
  rw [a1]
  by_cases h : lib.fails (scan_row row s).trace
      (Event.put_row_c (out_fd f) (label_row f row)) = true
  · rw [lib_call_fail h, and_then_some _ rfl]
    rw [a4] at h
    rw [attempt_fail _ h]
    exact ⟨hs1, by rw [a4], fun hn => Option.noConfusion hn⟩
  · rw [lib_call_pass h, and_then_none _ rfl]
    have hs2 : Good f { scan_row row s with
        trace := (scan_row row s).trace ++ [Event.put_row_c (out_fd f) (label_row f row)] } :=
      hs1
    obtain ⟨b1, b2, b3⟩ := put_mean_row_spec lib f row _ hs2 a2
    rw [a4] at h
    rw [attempt_pass _ h]
    refine ⟨b1, ?_, ?_⟩
    · rw [b2, a4]
    · intro hn
      obtain ⟨c1, c2⟩ := b3 hn
      refine ⟨?_, ?_⟩
      · rw [c1]; exact a6
      · rw [c2]; exact hval

theorem last_val_step (f : files) (v : BandCell) (k row : Nat) :
    last_val f (last_val f v 1 row) k (row + 1) = last_val f v (k + 1) row := by
  unfold last_val
  by_cases hn : f.ncols.toNat = 0
  · simp [hn]
  · by_cases hk : k = 0
    · subst hk; simp [hn]
    · have : row + 1 + k - 1 = row + (k + 1) - 1 := by omega
      simp [hn, hk, this]

theorem phase_congr {lib : RasterLib} {f : files} {evs : List Event} {r1 r2 : Nat}
    {u1 u2 : BandCell → BandCell} {P : St → St × Option Status}
    (h : Phase lib f evs r1 u1 P) (hr : r1 = r2) (hu : ∀ v, u1 v = u2 v) :
    Phase lib f evs r2 u2 P := by
  subst hr
  have : u1 = u2 := funext hu
  subst this
  exact h

theorem phase_row_loop (lib : RasterLib) (f : files) :
    ∀ (k row : Nat),
      Phase lib f (events_from f k row) (k * f.ncols.toNat) (fun v => last_val f v k row)
        (row_loop lib (out_fd f) k row) := by
  intro k
  induction k with
  | zero =>
    intro row s hs
    refine ⟨hs, rfl, fun _ => ⟨?_, ?_⟩⟩
    · show s.band_reads = s.band_reads + 0 * f.ncols.toNat
      omega
    · show s.files.bands_val.val = last_val f s.files.bands_val.val 0 row
      simp [last_val]
  | succ k ih =>
    intro row
    have h := phase_seq (phase_row_body lib f row) (ih (row + 1))
    refine phase_congr h (by ring) ?_
    intro v
    exact last_val_step f v k row

theorem phase_rows (lib : RasterLib) (f : files) :
    Phase lib f (events_from f f.nrows.toNat 0) (f.nrows.toNat * f.ncols.toNat)
      (fun v => last_val f v f.nrows.toNat 0)
      (fun s => row_loop lib (out_fd f) s.files.nrows.toNat 0 s) := by
  intro s hs
  have h := (good_out_band hs).2.2.1
  dsimp only
  rw [h]
  exact phase_row_loop lib f f.nrows.toNat 0 s hs

theorem phase_rows_and_after (lib : RasterLib) (f : files) :
    Phase lib f (events_from f f.nrows.toNat 0 ++ tail_events f)
      (f.nrows.toNat * f.ncols.toNat) (fun v => last_val f v f.nrows.toNat 0)
      (rows_and_after lib f) := by
  have h := phase_seq (phase_rows lib f)
    (phase_seq (phase_lib_call lib f (Event.close (out_fd f)))
      (phase_seq (phase_close_mean lib f)
        (phase_seq (phase_set_colors lib f) (phase_set_history lib f))))
  have he : events_from f f.nrows.toNat 0 ++
      ([Event.close (out_fd f)] ++ (mean_close_events f ++
        ([Event.write_colors f.out_name 1 (int_mul f.nrows f.ncols)] ++
          [Event.write_history f.out_name])))
      = events_from f f.nrows.toNat 0 ++ tail_events f := by
    simp [tail_events]
  rw [he] at h
  exact phase_congr h (by omega) (fun _ => rfl)

theorem run_eq (lib : RasterLib) (f : files) :
    write_output_run lib f =
      and_then (lib_call lib (Event.open_new f.out_name RASTER_MAP_TYPE.CELL_TYPE) (init_state f))
        fun s => and_then (open_mean lib s) (rows_and_after lib f) := rfl

theorem after_spec (lib : RasterLib) (f : files) (s : St) (hg : Good f s)
    (hb : s.band_reads = 0) (hv : s.files = f)
    (ht : attempt lib [] (full_trace f) =
      attempt lib s.trace (events_from f f.nrows.toNat 0 ++ tail_events f)) :
    RunSpec lib f (rows_and_after lib f s) := by
  obtain ⟨g1, g2, g3⟩ := phase_rows_and_after lib f s hg
  refine ⟨g1.2.2.1, ?_, ?_⟩
  · rw [g2, ht]
  · intro hn
    obtain ⟨c1, c2⟩ := g3 hn
    rw [hb] at c1
    rw [hv] at c2
    exact ⟨by omega, c2⟩

theorem full_trace_cons (f : files) :
    full_trace f = Event.open_new f.out_name RASTER_MAP_TYPE.CELL_TYPE ::
      (mean_open_events f ++ (events_from f f.nrows.toNat 0 ++ tail_events f)) := by
  unfold full_trace
  simp only [List.singleton_append, List.cons_append, List.append_assoc, List.nil_append]

theorem run_spec (lib : RasterLib) (f : files) : RunSpec lib f (write_output_run lib f) := by
  rw [run_eq]
  by_cases h1 : lib.fails [] (Event.open_new f.out_name RASTER_MAP_TYPE.CELL_TYPE) = true
  · have h1a : lib.fails (init_state f).trace
        (Event.open_new f.out_name RASTER_MAP_TYPE.CELL_TYPE) = true := h1
    rw [lib_call_fail h1a, and_then_some _ rfl]
    refine ⟨⟨f.bands_val.val, rfl⟩, ?_, fun hn => Option.noConfusion hn⟩
    rw [full_trace_cons, attempt_fail _ h1]
    rfl
  · have h1a : ¬ lib.fails (init_state f).trace
        (Event.open_new f.out_name RASTER_MAP_TYPE.CELL_TYPE) = true := h1
    rw [lib_call_pass h1a, and_then_none _ rfl]
    have hft : attempt lib [] (full_trace f) =
        attempt lib [Event.open_new f.out_name RASTER_MAP_TYPE.CELL_TYPE]
          (mean_open_events f ++ (events_from f f.nrows.toNat 0 ++ tail_events f)) := by
      rw [full_trace_cons, attempt_pass _ h1]
      rfl
    unfold open_mean
    dsimp only
    cases hb : f.out_band with
    | none =>
      have hm : (init_state f).files.out_band = none := hb
      have hmo : mean_open_events f = [] := by unfold mean_open_events; rw [hb]
      rw [hmo, List.nil_append] at hft
      simp only [hm]
      rw [and_then_none _ rfl]
      refine after_spec lib f _ ?_ rfl rfl hft
      refine ⟨?_, ?_, ⟨f.bands_val.val, rfl⟩, ?_⟩
      · simp [init_state, Rast_allocate_c_buf]
      · simp [init_state, Rast_allocate_d_buf]
      · simp [init_state, mean_fd_of, hb]
    | some name =>
      have hm : (init_state f).files.out_band = some name := hb
      have hmo : mean_open_events f = [Event.open_new name RASTER_MAP_TYPE.DCELL_TYPE] := by
        unfold mean_open_events; rw [hb]
      rw [hmo, List.singleton_append] at hft
      simp only [hm]
      by_cases h2 : lib.fails [Event.open_new f.out_name RASTER_MAP_TYPE.CELL_TYPE]
          (Event.open_new name RASTER_MAP_TYPE.DCELL_TYPE) = true
      · have h2a : lib.fails ({ init_state f with
          trace := (init_state f).trace ++
            [Event.open_new f.out_name RASTER_MAP_TYPE.CELL_TYPE] } : St).trace
            (Event.open_new name RASTER_MAP_TYPE.DCELL_TYPE) = true := h2
        rw [lib_call_fail h2a, and_then_some _ rfl, and_then_some _ rfl]
        refine ⟨⟨f.bands_val.val, rfl⟩, ?_, fun hn => Option.noConfusion hn⟩
        rw [hft, attempt_fail _ h2]
        rfl
      · have h2a : ¬ lib.fails ({ init_state f with
          trace := (init_state f).trace ++
            [Event.open_new f.out_name RASTER_MAP_TYPE.CELL_TYPE] } : St).trace
            (Event.open_new name RASTER_MAP_TYPE.DCELL_TYPE) = true := h2
        rw [lib_call_pass h2a, and_then_none _ rfl, and_then_none _ rfl]
        rw [attempt_pass _ h2] at hft
        refine after_spec lib f _ ?_ rfl rfl hft
        refine ⟨?_, ?_, ⟨f.bands_val.val, rfl⟩, ?_⟩
        · simp [init_state, Rast_allocate_c_buf]
        · simp [init_state, Rast_allocate_d_buf]
        · simp [mean_fd_of, hb]

theorem attempt_spec (lib : RasterLib) :
    ∀ (es tr : List Event), ∃ done,
      (attempt lib tr es).1 = tr ++ done ∧
      (((attempt lib tr es).2 = none ∧ done = es) ∨
        ∃ e rest, (attempt lib tr es).2 = some (Status.fatal e) ∧ es = done ++ e :: rest ∧
          lib.fails (tr ++ done) e = true) ∧
      (∀ a b c, done = a ++ b :: c → lib.fails (tr ++ a) b = false) := by
  intro es
  induction es with
  | nil =>
    intro tr
    refine ⟨[], by simp [attempt], Or.inl ⟨rfl, rfl⟩, ?_⟩
    intro a b c h
    simp at h
  | cons e es ih =>
    intro tr
    by_cases h : lib.fails tr e = true
    · rw [attempt_fail _ h]
      refine ⟨[], by simp, Or.inr ⟨e, es, rfl, rfl, by simpa using h⟩, ?_⟩
      intro a b c h
      simp at h
    · rw [attempt_pass _ h]
      obtain ⟨done, d1, d2, d3⟩ := ih (tr ++ [e])
      refine ⟨e :: done, by simp [d1], ?_, ?_⟩
      · rcases d2 with ⟨d2a, d2b⟩ | ⟨e2, rest, d2a, d2b, d2c⟩
        · exact Or.inl ⟨d2a, by rw [d2b]⟩
        · refine Or.inr ⟨e2, rest, d2a, by rw [d2b]; rfl, ?_⟩
          simpa using d2c
      · intro a b c hab
        cases a with
        | nil =>
          simp only [List.nil_append, List.cons.injEq] at hab
          rw [← hab.1]
          simpa using h
        | cons a0 a =>
          simp only [List.cons_append, List.cons.injEq] at hab
          have := d3 a b c hab.2
          rw [← hab.1]
          simpa using this

/-- How every run of `write_output` ends: either it returns TRUE after all the
calls of the full trace, or a call of the full trace failed, the run made the
calls before it and ended there with a fatal error. -/
theorem write_output_cases (lib : RasterLib) (f : files) :
    ((write_output lib f).status = Status.returned 1 ∧
        (write_output lib f).trace = full_trace f) ∨
      ∃ e rest, (write_output lib f).status = Status.fatal e ∧
        full_trace f = (write_output lib f).trace ++ e :: rest ∧
        lib.fails (write_output lib f).trace e = true := by
  obtain ⟨_, ht, _⟩ := run_spec lib f
  obtain ⟨done, d1, d2, _⟩ := attempt_spec lib (full_trace f) []
  have t1 : (write_output_run lib f).1.trace = (attempt lib [] (full_trace f)).1 := by
    rw [← ht]
  have t2 : (write_output_run lib f).2 = (attempt lib [] (full_trace f)).2 := by
    rw [← ht]
  have e1 : (write_output lib f).trace = done := by
    show (write_output_run lib f).1.trace = done
    rw [t1, d1]; rfl
  have e2 : (write_output lib f).status =
      ((attempt lib [] (full_trace f)).2).getD (Status.returned 1) := by
    show ((write_output_run lib f).2).getD (Status.returned 1) = _
    rw [t2]
  rcases d2 with ⟨d2a, d2b⟩ | ⟨e, rest, d2a, d2b, d2c⟩
  · left
    rw [e2, d2a, e1, d2b]
    exact ⟨rfl, rfl⟩
  · right
    refine ⟨e, rest, ?_, ?_, ?_⟩
    · rw [e2, d2a]; rfl
    · rw [e1]; exact d2b
    · rw [e1]; simpa using d2c

theorem trace_initial (lib : RasterLib) (f : files) :
    (write_output lib f).trace <+: full_trace f := by
  rcases write_output_cases lib f with ⟨_, h⟩ | ⟨e, rest, _, h, _⟩
  · rw [h]
  · exact ⟨e :: rest, h.symm⟩

theorem get_of_initial {α : Type} {l1 l2 : List α} (h : l1 <+: l2) {i : Nat} {a : α}
    (hi : l1[i]? = some a) : l2[i]? = some a := by
  obtain ⟨t, rfl⟩ := h
  have hlt : i < l1.length := by
    obtain ⟨hl, _⟩ := List.getElem?_eq_some.1 hi
    exact hl
  rw [List.getElem?_append_left hlt]
  exact hi

theorem label_rows_append (a b : List Event) :
    label_rows (a ++ b) = label_rows a ++ label_rows b := by
  unfold label_rows; rw [List.filterMap_append]

theorem mean_rows_append (a b : List Event) :
    mean_rows (a ++ b) = mean_rows a ++ mean_rows b := by
  unfold mean_rows; rw [List.filterMap_append]

theorem label_rows_events_from (f : files) :
    ∀ (k row : Nat),
      label_rows (events_from f k row) = (List.range k).map fun i => label_row f (row + i) := by
  intro k
  induction k with
  | zero => intro row; rfl
  | succ k ih =>
    intro row
    rw [events_from, label_rows_append, ih, List.range_succ_eq_map, List.map_cons,
      List.map_map]
    have : label_rows (row_events f row) = [label_row f row] := by
      unfold row_events
      cases f.out_band <;> simp [label_rows]
    rw [this]
    simp only [List.singleton_append, Nat.add_zero, List.cons.injEq, true_and]
    apply List.map_congr_left
    intro i _
    simp only [Function.comp, Nat.succ_eq_add_one]
    congr 1
    omega

theorem mean_rows_events_from (f : files) :
    ∀ (k row : Nat),
      mean_rows (events_from f k row) =
        if f.out_band = none then [] else (List.range k).map fun i => mean_row f (row + i) := by
  intro k
  induction k with
  | zero => intro row; simp [events_from, mean_rows]
  | succ k ih =>
    intro row
    rw [events_from, mean_rows_append, ih]
    cases hb : f.out_band with
    | none => simp [row_events, hb, mean_rows]
    | some name =>
      have : mean_rows (row_events f row) = [mean_row f row] := by
        unfold row_events
        simp [hb, mean_rows]
      rw [this, List.range_succ_eq_map, List.map_cons, List.map_map]
      simp only [reduceCtorEq, if_false, List.singleton_append, Nat.add_zero,
        List.cons.injEq, true_and]
      apply List.map_congr_left
      intro i _
      simp only [Function.comp, Nat.succ_eq_add_one]
      congr 1
      omega

theorem label_rows_full (f : files) :
    label_rows (full_trace f) = (List.range f.nrows.toNat).map (label_row f) := by
  unfold full_trace tail_events mean_open_events mean_close_events
  simp only [label_rows_append, label_rows_events_from, Nat.zero_add]
  cases f.out_band <;> simp [label_rows]

theorem mean_rows_full (f : files) :
    mean_rows (full_trace f) =
      if f.out_band = none then [] else (List.range f.nrows.toNat).map (mean_row f) := by
  unfold full_trace tail_events mean_open_events mean_close_events
  simp only [mean_rows_append, mean_rows_events_from, Nat.zero_add]
  cases f.out_band <;> simp [mean_rows]

theorem label_rows_get (lib : RasterLib) (f : files) (row : Nat) (r : List CELL)
    (h : (label_rows (write_output lib f).trace)[row]? = some r) :
    r = label_row f row ∧ row < f.nrows.toNat := by
  have hp : label_rows (write_output lib f).trace <+: label_rows (full_trace f) :=
    List.IsPrefix.filterMap _ (trace_initial lib f)
  have h2 := get_of_initial hp h
  rw [label_rows_full, List.getElem?_map] at h2
  by_cases hr : row < f.nrows.toNat
  · rw [List.getElem?_range hr] at h2
    simp only [Option.map_some', Option.some.injEq] at h2
    exact ⟨h2.symm, hr⟩
  · have : (List.range f.nrows.toNat)[row]? = none := by
      rw [List.getElem?_eq_none]; simpa using hr
    rw [this] at h2
    simp at h2

theorem mean_rows_get (lib : RasterLib) (f : files) (row : Nat) (r : List DCELL)
    (h : (mean_rows (write_output lib f).trace)[row]? = some r) :
    r = mean_row f row ∧ row < f.nrows.toNat ∧ f.out_band ≠ none := by
  have hp : mean_rows (write_output lib f).trace <+: mean_rows (full_trace f) :=
    List.IsPrefix.filterMap _ (trace_initial lib f)
  have h2 := get_of_initial hp h
  rw [mean_rows_full] at h2
  by_cases hb : f.out_band = none
  · rw [if_pos hb] at h2
    simp at h2
  · rw [if_neg hb, List.getElem?_map] at h2
    by_cases hr : row < f.nrows.toNat
    · rw [List.getElem?_range hr] at h2
      simp only [Option.map_some', Option.some.injEq] at h2
      exact ⟨h2.symm, hr, hb⟩
    · have : (List.range f.nrows.toNat)[row]? = none := by
        rw [List.getElem?_eq_none]; simpa using hr
      rw [this] at h2
      simp at h2

theorem label_row_get (f : files) (row col : Nat) (hc : col < f.ncols.toNat) :
    (label_row f row)[col]? = some (label_cell f row col) := by
  unfold label_row
  rw [List.getElem?_map, List.getElem?_range hc]
  rfl

theorem mean_row_get (f : files) (row col : Nat) (hc : col < f.ncols.toNat) :
    (mean_row f row)[col]? = some (mean_cell f row col) := by
  unfold mean_row
  rw [List.getElem?_map, List.getElem?_range hc]
  rfl

theorem col_body_sim (row col : Nat) {s t : St} (h : Sim s t) :
    Sim (col_body row col s) (col_body_lazy row col t) := by
  obtain ⟨h1, h2, h3, h4, v, h5⟩ := h
  have e1 : t.files.null_flag = s.files.null_flag := by rw [h5]; rfl
  have e2 : t.files.iseg_seg = s.files.iseg_seg := by rw [h5]; rfl
  have e3 : t.files.bands_seg = s.files.bands_seg := by rw [h5]; rfl
  unfold col_body col_body_lazy
  dsimp only
  cases hc : FLAG_GET s.files.null_flag row col
  · have hc2 : FLAG_GET t.files.null_flag row col = false := by rw [e1]; exact hc
    rw [hc2]
    simp only [Bool.not_false, if_true]
    refine ⟨h1, ?_, ?_, h4, s.files.bands_seg.data row col, ?_⟩
    · dsimp only
      rw [h2, e2]
    · dsimp only
      rw [h3, e3]
    · dsimp only
      rw [h5]
      rfl
  · have hc2 : FLAG_GET t.files.null_flag row col = true := by rw [e1]; exact hc
    rw [hc2]
    simp only [Bool.not_true, Bool.false_eq_true, if_false]
    exact ⟨h1, h2, h3, h4, v, by rw [h5]; rfl⟩

theorem col_loop_sim (row : Nat) :
    ∀ (k col : Nat) (s t : St), Sim s t →
      Sim (col_loop row k col s) (col_loop_lazy row k col t) := by
  intro k
  induction k with
  | zero => intro col s t h; exact h
  | succ k ih =>
    intro col s t h
    exact ih (col + 1) _ _ (col_body_sim row col h)

theorem sim_fields {s t : St} (h : Sim s t) :
    t.files.out_band = s.files.out_band ∧ t.files.out_name = s.files.out_name ∧
      t.files.nrows = s.files.nrows ∧ t.files.ncols = s.files.ncols := by
  obtain ⟨_, _, _, _, v, h5⟩ := h
  rw [h5]
  exact ⟨rfl, rfl, rfl, rfl⟩

theorem scan_row_sim (row : Nat) {s t : St} (h : Sim s t) :
    Sim (scan_row row s) (scan_row_lazy row t) := by
  have hn := (sim_fields h).2.2.2
  obtain ⟨h1, h2, h3, h4, h5⟩ := h
  unfold scan_row scan_row_lazy
  dsimp only
  rw [hn, h2, h3]
  exact col_loop_sim row _ 0 _ _ ⟨h1, rfl, rfl, h4, h5⟩

theorem sim_refl (s : St) : Sim s s :=
  ⟨rfl, rfl, rfl, rfl, s.files.bands_val.val, rfl⟩

theorem psim_lib_call (lib : RasterLib) (e : Event) : PSim (lib_call lib e) (lib_call lib e) := by
  intro s t h
  have ht := h.2.2.2.1
  by_cases hf : lib.fails s.trace e = true
  · have hf2 : lib.fails t.trace e = true := by rw [ht]; exact hf
    rw [lib_call_fail hf, lib_call_fail hf2]
    exact ⟨h, rfl⟩
  · have hf2 : ¬ lib.fails t.trace e = true := by rw [ht]; exact hf
    rw [lib_call_pass hf, lib_call_pass hf2]
    obtain ⟨h1, h2, h3, h4, h5⟩ := h
    exact ⟨⟨h1, h2, h3, by show t.trace ++ [e] = s.trace ++ [e]; rw [h4], h5⟩, rfl⟩

theorem psim_seq {P Q P2 Q2 : St → St × Option Status} (h1 : PSim P Q) (h2 : PSim P2 Q2) :
    PSim (fun s => and_then (P s) P2) (fun t => and_then (Q t) Q2) := by
  intro s t h
  obtain ⟨a, b⟩ := h1 s t h
  dsimp only
  cases hst : (P s).2 with
  | none =>
    have hq : (Q t).2 = none := by rw [← b, hst]
    rw [and_then_none _ hst, and_then_none _ hq]
    exact h2 _ _ a
  | some st =>
    have hq : (Q t).2 = some st := by rw [← b, hst]
    rw [and_then_some _ hst, and_then_some _ hq]
    exact ⟨a, rfl⟩

theorem psim_put_mean_row (lib : RasterLib) : PSim (put_mean_row lib) (put_mean_row lib) := by
  intro s t h
  have hob := (sim_fields h).1
  have hfd := h.1
  have hmb := h.2.2.1
  unfold put_mean_row
  rw [hob, hfd, hmb]
  by_cases hb : s.files.out_band ≠ none
  · rw [if_pos hb, if_pos hb]
    cases hm : s.mean_fd with
    | none => exact ⟨h, rfl⟩
    | some fd => exact psim_lib_call lib _ s t h
  · rw [if_neg hb, if_neg hb]
    exact ⟨h, rfl⟩

theorem psim_close_mean (lib : RasterLib) : PSim (close_mean lib) (close_mean lib) := by
  intro s t h
  have hob := (sim_fields h).1
  have hfd := h.1
  unfold close_mean
  rw [hob, hfd]
  by_cases hb : s.files.out_band ≠ none
  · rw [if_pos hb, if_pos hb]
    cases hm : s.mean_fd with
    | none => exact ⟨h, rfl⟩
    | some fd => exact psim_lib_call lib _ s t h
  · rw [if_neg hb, if_neg hb]
    exact ⟨h, rfl⟩

theorem psim_set_colors (lib : RasterLib) : PSim (set_colors lib) (set_colors lib) := by
  intro s t h
  obtain ⟨_, h2, h3, h4⟩ := sim_fields h
  unfold set_colors
  rw [h2, h3, h4]
  exact psim_lib_call lib _ s t h

theorem psim_set_history (lib : RasterLib) : PSim (set_history lib) (set_history lib) := by
  intro s t h
  obtain ⟨_, h2, _, _⟩ := sim_fields h
  unfold set_history
  rw [h2]
  exact psim_lib_call lib _ s t h

theorem psim_open_mean (lib : RasterLib) : PSim (open_mean lib) (open_mean lib) := by
  intro s t h
  have hob := (sim_fields h).1
  unfold open_mean
  rw [hob]
  cases hb : s.files.out_band with
  | none => exact ⟨h, rfl⟩
  | some name =>
    dsimp only
    have hp : PSim
        (fun s1 : St => (({ s1 with mean_fd := some ⟨name, RASTER_MAP_TYPE.DCELL_TYPE⟩ } : St),
          (none : Option Status)))
        (fun s1 : St => (({ s1 with mean_fd := some ⟨name, RASTER_MAP_TYPE.DCELL_TYPE⟩ } : St),
          (none : Option Status))) := by
      intro a b hab
      obtain ⟨_, h2, h3, h4, h5⟩ := hab
      exact ⟨⟨rfl, h2, h3, h4, h5⟩, rfl⟩
    exact psim_seq (psim_lib_call lib _) hp s t h

theorem psim_row_body (lib : RasterLib) (fd : Fd) (row : Nat) :
    PSim (row_body lib fd row) (row_body_lazy lib fd row) := by
  intro s t h
  have hs := scan_row_sim row h
  unfold row_body row_body_lazy
  dsimp only
  rw [hs.2.1]
  exact psim_seq (psim_lib_call lib _) (psim_put_mean_row lib) _ _ hs

theorem psim_row_loop (lib : RasterLib) (fd : Fd) :
    ∀ (k row : Nat), PSim (row_loop lib fd k row) (row_loop_lazy lib fd k row) := by
  intro k
  induction k with
  | zero => intro row s t h; exact ⟨h, rfl⟩
  | succ k ih =>
    intro row
    exact psim_seq (psim_row_body lib fd row) (ih (row + 1))

theorem psim_rows (lib : RasterLib) (fd : Fd) :
    PSim (fun s => row_loop lib fd s.files.nrows.toNat 0 s)
      (fun s => row_loop_lazy lib fd s.files.nrows.toNat 0 s) := by
  intro s t h
  have hn := (sim_fields h).2.2.1
  dsimp only
  rw [hn]
  exact psim_row_loop lib fd _ 0 s t h

theorem run_sim (lib : RasterLib) (f : files) :
    Sim (write_output_run lib f).1 (write_output_lazy_run lib f).1 ∧
      (write_output_run lib f).2 = (write_output_lazy_run lib f).2 := by
  have h := psim_seq (psim_lib_call lib (Event.open_new f.out_name RASTER_MAP_TYPE.CELL_TYPE))
    (psim_seq (psim_open_mean lib)
      (psim_seq (psim_rows lib ⟨f.out_name, RASTER_MAP_TYPE.CELL_TYPE⟩)
        (psim_seq (psim_lib_call lib (Event.close ⟨f.out_name, RASTER_MAP_TYPE.CELL_TYPE⟩))
          (psim_seq (psim_close_mean lib)
            (psim_seq (psim_set_colors lib) (psim_set_history lib))))))
  exact h (init_state f) (init_state f) (sim_refl _)

theorem returned_rows (lib : RasterLib) (f : files)
    (h : (write_output lib f).status = Status.returned 1) :
    (label_rows (write_output lib f).trace).length = f.nrows.toNat ∧
      (f.out_band ≠ none → (mean_rows (write_output lib f).trace).length = f.nrows.toNat) := by
  rcases write_output_cases lib f with ⟨_, ht⟩ | ⟨e, rest, hs, _, _⟩
  · rw [ht, label_rows_full, mean_rows_full]
    refine ⟨by simp, ?_⟩
    intro hb
    rw [if_neg hb]
    simp
  · rw [hs] at h
    exact Status.noConfusion h

theorem returned_row_exists (lib : RasterLib) (f : files) (row : Nat)
    (hr : (row : Int) < f.nrows)
    (h : (write_output lib f).status = Status.returned 1) :
    (label_rows (write_output lib f).trace)[row]? = some (label_row f row) ∧
      (f.out_band ≠ none →
        (mean_rows (write_output lib f).trace)[row]? = some (mean_row f row)) := by
  have hr2 : row < f.nrows.toNat := Int.lt_toNat.2 hr
  rcases write_output_cases lib f with ⟨_, ht⟩ | ⟨e, rest, hs, _, _⟩
  · rw [ht, label_rows_full, mean_rows_full]
    refine ⟨?_, ?_⟩
    · rw [List.getElem?_map, List.getElem?_range hr2]; rfl
    · intro hb
      rw [if_neg hb, List.getElem?_map, List.getElem?_range hr2]; rfl
  · rw [hs] at h
    exact Status.noConfusion h

theorem full_trace_split (f : files) :
    full_trace f = head_events f ++
      [Event.write_colors f.out_name 1 (int_mul f.nrows f.ncols), Event.write_history f.out_name] := by
  simp [full_trace, head_events, tail_events]

theorem mem_events_from (f : files) :
    ∀ (k row : Nat) (e : Event), e ∈ events_from f k row →
      (∃ r, e = Event.put_row_c (out_fd f) (label_row f r)) ∨
      (∃ name r, f.out_band = some name ∧
        e = Event.put_row_d ⟨name, RASTER_MAP_TYPE.DCELL_TYPE⟩ (mean_row f r)) := by
  intro k
  induction k with
  | zero => intro row e h; simp [events_from] at h
  | succ k ih =>
    intro row e h
    rw [events_from, List.mem_append] at h
    rcases h with h | h
    · unfold row_events at h
      cases hb : f.out_band with
      | none =>
        rw [hb] at h
        simp only [List.mem_singleton] at h
        exact Or.inl ⟨row, h⟩
      | some name =>
        rw [hb] at h
        simp only [List.mem_cons, List.mem_singleton, List.not_mem_nil, or_false] at h
        rcases h with h | h
        · exact Or.inl ⟨row, h⟩
        · exact Or.inr ⟨name, row, rfl, h⟩
    · exact ih (row + 1) e h

theorem head_events_not_finish (f : files) :
    ∀ e ∈ head_events f, e.is_finish = false := by
  intro e h
  unfold head_events mean_open_events mean_close_events at h
  simp only [List.mem_append, List.mem_singleton] at h
  rcases h with (((h | h) | h) | h) | h
  · rw [h]; rfl
  · cases hb : f.out_band with
    | none => rw [hb] at h; simp at h
    | some name => rw [hb] at h; simp at h; rw [h]; rfl
  · rcases mem_events_from f _ _ e h with ⟨r, h2⟩ | ⟨name, r, _, h2⟩ <;> rw [h2] <;> rfl
  · rw [h]; rfl
  · cases hb : f.out_band with
    | none => rw [hb] at h; simp at h
    | some name => rw [hb] at h; simp at h; rw [h]; rfl

theorem label_rows_head (f : files) : label_rows (head_events f) = label_rows (full_trace f) := by
  rw [full_trace_split, label_rows_append]
  simp [label_rows]

theorem mean_rows_head (f : files) : mean_rows (head_events f) = mean_rows (full_trace f) := by
  rw [full_trace_split, mean_rows_append]
  simp [mean_rows]

theorem calls_passed (lib : RasterLib) (f : files) :
    ∀ a b c, (write_output lib f).trace = a ++ b :: c → lib.fails a b = false := by
  obtain ⟨_, ht, _⟩ := run_spec lib f
  obtain ⟨done, d1, _, d3⟩ := attempt_spec lib (full_trace f) []
  have t1 : (write_output_run lib f).1.trace = (attempt lib [] (full_trace f)).1 := by
    rw [← ht]
  have e1 : (write_output lib f).trace = done := by
    show (write_output_run lib f).1.trace = done
    rw [t1, d1]; rfl
  intro a b c h
  rw [e1] at h
  simpa using d3 a b c h

theorem status_cases (lib : RasterLib) (f : files) :
    (write_output lib f).status = Status.returned 1 ∨
      ∃ e, (write_output lib f).status = Status.fatal e := by
  rcases write_output_cases lib f with ⟨h, _⟩ | ⟨e, _, h, _, _⟩
  · exact Or.inl h
  · exact Or.inr ⟨e, h⟩

theorem head_before_finish (lib : RasterLib) (f : files) (x : Event)
    (hx : x ∈ (write_output lib f).trace) (hf : x.is_finish = true) :
    head_events f <+: (write_output lib f).trace := by
  have h1 : head_events f <+: full_trace f := by
    rw [full_trace_split]; exact List.prefix_append _ _
  rcases List.prefix_or_prefix_of_prefix h1 (trace_initial lib f) with h | h
  · exact h
  · have := head_events_not_finish f x (h.subset hx)
    rw [hf] at this
    exact Bool.noConfusion this

theorem then_close_none {r : CSt × Option Status} (k : CSt → CSt × Option Status)
    (h : r.2 = none) : then_close r k = k r.1 := by
  unfold then_close; rw [h]

theorem then_close_some {r : CSt × Option Status} (k : CSt → CSt × Option Status)
    {st : Status} (h : r.2 = some st) : then_close r k = (r.1, some st) := by
  unfold then_close; rw [h]

theorem steps_one {c : Release} {P : CSt → CSt × Option Status} (h : Step c P) :
    Steps [c] P := by
  intro s
  rcases h s with ⟨_, h2⟩ | ⟨_, h2, h3, h4⟩
  · exact ⟨[], List.nil_prefix, by rw [h2, List.append_nil], by rw [h2], by rw [h2]⟩
  · exact ⟨[c], List.prefix_refl _, h2, h3, h4⟩

theorem steps_cons {c : Release} {l : List Release} {P Q : CSt → CSt × Option Status}
    (h1 : Step c P) (h2 : Steps l Q) : Steps (c :: l) (fun s => then_close (P s) Q) := by
  intro s
  dsimp only
  rcases h1 s with ⟨a1, a2⟩ | ⟨a1, a2, a3, a4⟩
  · cases hst : (P s).2 with
    | none => exact absurd hst a1
    | some st =>
      rw [then_close_some _ hst]
      exact ⟨[], List.nil_prefix, by rw [a2, List.append_nil], by rw [a2], by rw [a2]⟩
  · rw [then_close_none _ a1]
    obtain ⟨cs, b1, b2, b3, b4⟩ := h2 (P s).1
    refine ⟨c :: cs, ?_, ?_, by rw [b3, a3], by rw [b4, a4]⟩
    · obtain ⟨t, ht⟩ := b1
      exact ⟨t, by rw [← ht]; rfl⟩
    · rw [b2, a2, List.append_assoc]; rfl

theorem step_free_bands_val : Step (Release.G_free Buf.bands_val) free_bands_val := by
  intro s
  unfold free_bands_val
  cases G_free s.files.bands_val.ptr with
  | none => exact Or.inl ⟨fun h => Option.noConfusion h, rfl⟩
  | some p => exact Or.inr ⟨rfl, rfl, rfl, rfl⟩

theorem step_free_second_val : Step (Release.G_free Buf.second_val) free_second_val := by
  intro s
  unfold free_second_val
  cases G_free s.files.second_val.ptr with
  | none => exact Or.inl ⟨fun h => Option.noConfusion h, rfl⟩
  | some p => exact Or.inr ⟨rfl, rfl, rfl, rfl⟩

theorem step_close_iseg_seg : Step (Release.segment_close Seg.iseg_seg) close_iseg_seg := by
  intro s
  exact Or.inr ⟨rfl, rfl, rfl, rfl⟩

theorem step_destroy_null_flag :
    Step (Release.flag_destroy Flg.null_flag) destroy_null_flag := by
  intro s
  exact Or.inr ⟨rfl, rfl, rfl, rfl⟩

theorem step_destroy_candidate_flag :
    Step (Release.flag_destroy Flg.candidate_flag) destroy_candidate_flag := by
  intro s
  exact Or.inr ⟨rfl, rfl, rfl, rfl⟩

theorem step_destroy_seeds_flag :
    Step (Release.flag_destroy Flg.seeds_flag) destroy_seeds_flag := by
  intro s
  exact Or.inr ⟨rfl, rfl, rfl, rfl⟩

theorem step_cleanup_token : Step Release.link_cleanup cleanup_token := by
  intro s
  unfold cleanup_token
  cases link_cleanup s.files.token with
  | none => exact Or.inl ⟨fun h => Option.noConfusion h, rfl⟩
  | some p => exact Or.inr ⟨rfl, rfl, rfl, rfl⟩

theorem steps_close_tail : Steps tail_calls close_tail :=
  steps_cons step_free_bands_val
    (steps_cons step_free_second_val
      (steps_cons step_close_iseg_seg
        (steps_cons step_destroy_null_flag
          (steps_cons step_destroy_candidate_flag
            (steps_cons step_destroy_seeds_flag (steps_one step_cleanup_token))))))

theorem close_files_calls (f : files) :
    ∃ cs, cs <+: tail_calls ∧
      (close_files f).calls =
        [Release.segment_close Seg.bands_seg] ++
          (if f.bounds_map ≠ none then [Release.segment_close Seg.bounds_seg] else []) ++ cs ∧
      (f.bounds_map = none → (close_files f).files.bounds_seg = f.bounds_seg) := by
  have hrun : close_files_run f =
      then_close (close_bands_seg ⟨f, []⟩) fun s => then_close (close_bounds_seg s) close_tail :=
    rfl
  have hc : (close_files f).calls = (close_files_run f).1.calls := rfl
  have hf : (close_files f).files = (close_files_run f).1.files := rfl
  rw [hc, hf, hrun, then_close_none _ rfl]
  unfold close_bounds_seg
  by_cases hb : f.bounds_map ≠ none
  · have hb2 : (close_bands_seg ⟨f, []⟩).1.files.bounds_map ≠ none := hb
    rw [if_pos hb2, if_pos hb, then_close_none _ rfl]
    obtain ⟨cs, c1, c2, _, _⟩ := steps_close_tail
      { files := { (close_bands_seg ⟨f, []⟩).1.files with
          bounds_seg := (segment_close (close_bands_seg ⟨f, []⟩).1.files.bounds_seg).1 }
        calls := (close_bands_seg ⟨f, []⟩).1.calls ++ [Release.segment_close Seg.bounds_seg] }
    refine ⟨cs, c1, ?_, fun h => absurd h hb⟩
    rw [c2]; rfl
  · have hb2 : ¬ (close_bands_seg ⟨f, []⟩).1.files.bounds_map ≠ none := hb
    rw [if_neg hb2, if_neg hb, then_close_none _ rfl]
    obtain ⟨cs, c1, c2, _, c4⟩ := steps_close_tail (close_bands_seg ⟨f, []⟩).1
    refine ⟨cs, c1, ?_, fun _ => ?_⟩
    · rw [c2]; rfl
    · rw [c4]; rfl

theorem close_files_live (f : files) (h : live f) :
    (close_files f).status = Status.returned 1 ∧
    (close_files f).calls =
      [Release.segment_close Seg.bands_seg] ++
        (if f.bounds_map ≠ none then [Release.segment_close Seg.bounds_seg] else []) ++
        [Release.G_free Buf.bands_val, Release.G_free Buf.second_val,
          Release.segment_close Seg.iseg_seg, Release.flag_destroy Flg.null_flag,
          Release.flag_destroy Flg.candidate_flag, Release.flag_destroy Flg.seeds_flag,
          Release.link_cleanup] ∧
    (close_files f).calls.Nodup ∧
    (∀ c, c ∈ owned f ↔ c ∈ (close_files f).calls) ∧
    released (close_files f).files := by
  obtain ⟨h1, h2, h3, h4, h5, h6, h7, h8, h9⟩ := h
  cases hb : f.bounds_map with
  | none =>
    have hcalls : (close_files f).calls =
        [Release.segment_close Seg.bands_seg, Release.G_free Buf.bands_val,
          Release.G_free Buf.second_val, Release.segment_close Seg.iseg_seg,
          Release.flag_destroy Flg.null_flag, Release.flag_destroy Flg.candidate_flag,
          Release.flag_destroy Flg.seeds_flag, Release.link_cleanup] := by
      simp [close_files, close_files_run, then_close, close_bands_seg, close_bounds_seg,
        free_bands_val, free_second_val, close_iseg_seg, destroy_null_flag,
        destroy_candidate_flag, destroy_seeds_flag, cleanup_token, G_free, flag_destroy,
        link_cleanup, hb, h4, h5, h6, h7, h8, h9]
    refine ⟨?_, ?_, ?_, ?_, ?_⟩
    · simp [close_files, close_files_run, then_close, close_bands_seg, close_bounds_seg,
        free_bands_val, free_second_val, close_iseg_seg, destroy_null_flag,
        destroy_candidate_flag, destroy_seeds_flag, cleanup_token, G_free, flag_destroy,
        link_cleanup, hb, h4, h5, h6, h7, h8, h9]
    · rw [hcalls]; rfl
    · rw [hcalls]; decide
    · intro c
      rw [hcalls]
      simp only [owned, hb, ne_eq, not_true_eq_false, if_false, List.append_nil]
    · simp [released, close_files, close_files_run, then_close, close_bands_seg,
        close_bounds_seg, free_bands_val, free_second_val, close_iseg_seg, destroy_null_flag,
        destroy_candidate_flag, destroy_seeds_flag, cleanup_token, G_free, flag_destroy,
        link_cleanup, segment_close, hb, h1, h2, h4, h5, h6, h7, h8, h9]
  | some name =>
    have h3b : f.bounds_seg.is_open = true := h3 (by rw [hb]; exact fun hn => Option.noConfusion hn)
    have hcalls : (close_files f).calls =
        [Release.segment_close Seg.bands_seg, Release.segment_close Seg.bounds_seg,
          Release.G_free Buf.bands_val,
          Release.G_free Buf.second_val, Release.segment_close Seg.iseg_seg,
          Release.flag_destroy Flg.null_flag, Release.flag_destroy Flg.candidate_flag,
          Release.flag_destroy Flg.seeds_flag, Release.link_cleanup] := by
      simp [close_files, close_files_run, then_close, close_bands_seg, close_bounds_seg,
        free_bands_val, free_second_val, close_iseg_seg, destroy_null_flag,
        destroy_candidate_flag, destroy_seeds_flag, cleanup_token, G_free, flag_destroy,
        link_cleanup, hb, h4, h5, h6, h7, h8, h9]
    refine ⟨?_, ?_, ?_, ?_, ?_⟩
    · simp [close_files, close_files_run, then_close, close_bands_seg, close_bounds_seg,
        free_bands_val, free_second_val, close_iseg_seg, destroy_null_flag,
        destroy_candidate_flag, destroy_seeds_flag, cleanup_token, G_free, flag_destroy,
        link_cleanup, hb, h4, h5, h6, h7, h8, h9]
    · rw [hcalls]; rfl
    · rw [hcalls]; decide
    · intro c
      rw [hcalls]
      simp only [owned, hb, ne_eq, reduceCtorEq, not_false_eq_true, if_true,
        List.cons_append, List.nil_append, List.mem_cons, List.mem_singleton,
        List.not_mem_nil, or_false]
      tauto
    · simp [released, close_files, close_files_run, then_close, close_bands_seg,
        close_bounds_seg, free_bands_val, free_second_val, close_iseg_seg, destroy_null_flag,
        destroy_candidate_flag, destroy_seeds_flag, cleanup_token, G_free, flag_destroy,
        link_cleanup, segment_close, hb, h1, h2, h3b, h4, h5, h6, h7, h8, h9]

theorem close_files_bounds_map (f : files) :
    (close_files f).files.bounds_map = f.bounds_map := by
  have hrun : close_files_run f =
      then_close (close_bands_seg ⟨f, []⟩) fun s => then_close (close_bounds_seg s) close_tail :=
    rfl
  have hf : (close_files f).files = (close_files_run f).1.files := rfl
  rw [hf, hrun, then_close_none _ rfl]
  unfold close_bounds_seg
  by_cases hb : (close_bands_seg ⟨f, []⟩).1.files.bounds_map ≠ none
  · rw [if_pos hb, then_close_none _ rfl]
    obtain ⟨cs, _, _, c3, _⟩ := steps_close_tail
      { files := { (close_bands_seg ⟨f, []⟩).1.files with
          bounds_seg := (segment_close (close_bands_seg ⟨f, []⟩).1.files.bounds_seg).1 }
        calls := (close_bands_seg ⟨f, []⟩).1.calls ++ [Release.segment_close Seg.bounds_seg] }
    rw [c3]; rfl
  · rw [if_neg hb, then_close_none _ rfl]
    obtain ⟨cs, _, _, c3, _⟩ := steps_close_tail (close_bands_seg ⟨f, []⟩).1
    rw [c3]; rfl

theorem csim_free_bands_val (a b : List Release) : CSim a b free_bands_val := by
  intro s t h
  obtain ⟨⟨m, bs, hf⟩, cs, h1, h2⟩ := h
  unfold free_bands_val
  rw [hf]
  dsimp only
  cases G_free s.files.bands_val.ptr with
  | none => exact ⟨⟨⟨m, bs, hf⟩, cs, h1, h2⟩, rfl⟩
  | some p =>
    refine ⟨⟨⟨m, bs, rfl⟩, cs ++ [Release.G_free Buf.bands_val], ?_, ?_⟩, rfl⟩
    · show s.calls ++ [Release.G_free Buf.bands_val] = a ++ (cs ++ [Release.G_free Buf.bands_val])
      rw [h1, List.append_assoc]
    · show t.calls ++ [Release.G_free Buf.bands_val] = b ++ (cs ++ [Release.G_free Buf.bands_val])
      rw [h2, List.append_assoc]

theorem csim_free_second_val (a b : List Release) : CSim a b free_second_val := by
  intro s t h
  obtain ⟨⟨m, bs, hf⟩, cs, h1, h2⟩ := h
  unfold free_second_val
  rw [hf]
  dsimp only
  cases G_free s.files.second_val.ptr with
  | none => exact ⟨⟨⟨m, bs, hf⟩, cs, h1, h2⟩, rfl⟩
  | some p =>
    refine ⟨⟨⟨m, bs, rfl⟩, cs ++ [Release.G_free Buf.second_val], ?_, ?_⟩, rfl⟩
    · show s.calls ++ [Release.G_free Buf.second_val] = a ++ (cs ++ [Release.G_free Buf.second_val])
      rw [h1, List.append_assoc]
    · show t.calls ++ [Release.G_free Buf.second_val] = b ++ (cs ++ [Release.G_free Buf.second_val])
      rw [h2, List.append_assoc]

theorem csim_close_iseg_seg (a b : List Release) : CSim a b close_iseg_seg := by
  intro s t h
  obtain ⟨⟨m, bs, hf⟩, cs, h1, h2⟩ := h
  unfold close_iseg_seg
  rw [hf]
  refine ⟨⟨⟨m, bs, rfl⟩, cs ++ [Release.segment_close Seg.iseg_seg], ?_, ?_⟩, rfl⟩
  · show s.calls ++ [Release.segment_close Seg.iseg_seg] = a ++ (cs ++ [Release.segment_close Seg.iseg_seg])
    rw [h1, List.append_assoc]
  · show t.calls ++ [Release.segment_close Seg.iseg_seg] = b ++ (cs ++ [Release.segment_close Seg.iseg_seg])
    rw [h2, List.append_assoc]

theorem csim_destroy_null_flag (a b : List Release) : CSim a b destroy_null_flag := by
  intro s t h
  obtain ⟨⟨m, bs, hf⟩, cs, h1, h2⟩ := h
  unfold destroy_null_flag
  rw [hf]
  refine ⟨⟨⟨m, bs, rfl⟩, cs ++ [Release.flag_destroy Flg.null_flag], ?_, ?_⟩, rfl⟩
  · show s.calls ++ [Release.flag_destroy Flg.null_flag] = a ++ (cs ++ [Release.flag_destroy Flg.null_flag])
    rw [h1, List.append_assoc]
  · show t.calls ++ [Release.flag_destroy Flg.null_flag] = b ++ (cs ++ [Release.flag_destroy Flg.null_flag])
    rw [h2, List.append_assoc]

theorem csim_destroy_candidate_flag (a b : List Release) : CSim a b destroy_candidate_flag := by
  intro s t h
  obtain ⟨⟨m, bs, hf⟩, cs, h1, h2⟩ := h
  unfold destroy_candidate_flag
  rw [hf]
  refine ⟨⟨⟨m, bs, rfl⟩, cs ++ [Release.flag_destroy Flg.candidate_flag], ?_, ?_⟩, rfl⟩
  · show s.calls ++ [Release.flag_destroy Flg.candidate_flag] = a ++ (cs ++ [Release.flag_destroy Flg.candidate_flag])
    rw [h1, List.append_assoc]
  · show t.calls ++ [Release.flag_destroy Flg.candidate_flag] = b ++ (cs ++ [Release.flag_destroy Flg.candidate_flag])
    rw [h2, List.append_assoc]

theorem csim_destroy_seeds_flag (a b : List Release) : CSim a b destroy_seeds_flag := by
  intro s t h
  obtain ⟨⟨m, bs, hf⟩, cs, h1, h2⟩ := h
  unfold destroy_seeds_flag
  rw [hf]
  refine ⟨⟨⟨m, bs, rfl⟩, cs ++ [Release.flag_destroy Flg.seeds_flag], ?_, ?_⟩, rfl⟩
  · show s.calls ++ [Release.flag_destroy Flg.seeds_flag] = a ++ (cs ++ [Release.flag_destroy Flg.seeds_flag])
    rw [h1, List.append_assoc]
  · show t.calls ++ [Release.flag_destroy Flg.seeds_flag] = b ++ (cs ++ [Release.flag_destroy Flg.seeds_flag])
    rw [h2, List.append_assoc]

theorem csim_cleanup_token (a b : List Release) : CSim a b cleanup_token := by
  intro s t h
  obtain ⟨⟨m, bs, hf⟩, cs, h1, h2⟩ := h
  unfold cleanup_token
  rw [hf]
  dsimp only
  cases link_cleanup s.files.token with
  | none => exact ⟨⟨⟨m, bs, hf⟩, cs, h1, h2⟩, rfl⟩
  | some p =>
    refine ⟨⟨⟨m, bs, rfl⟩, cs ++ [Release.link_cleanup], ?_, ?_⟩, rfl⟩
    · show s.calls ++ [Release.link_cleanup] = a ++ (cs ++ [Release.link_cleanup])
      rw [h1, List.append_assoc]
    · show t.calls ++ [Release.link_cleanup] = b ++ (cs ++ [Release.link_cleanup])
      rw [h2, List.append_assoc]

theorem csim_seq {a b : List Release} {P Q : CSt → CSt × Option Status}
    (h1 : CSim a b P) (h2 : CSim a b Q) : CSim a b (fun s => then_close (P s) Q) := by
  intro s t h
  obtain ⟨r, e⟩ := h1 s t h
  dsimp only
  cases hst : (P s).2 with
  | none =>
    have hq : (P t).2 = none := by rw [← e, hst]
    rw [then_close_none _ hst, then_close_none _ hq]
    exact h2 _ _ r
  | some st =>
    have hq : (P t).2 = some st := by rw [← e, hst]
    rw [then_close_some _ hst, then_close_some _ hq]
    exact ⟨r, rfl⟩

theorem csim_close_tail (a b : List Release) : CSim a b close_tail :=
  csim_seq (csim_free_bands_val a b)
    (csim_seq (csim_free_second_val a b)
      (csim_seq (csim_close_iseg_seg a b)
        (csim_seq (csim_destroy_null_flag a b)
          (csim_seq (csim_destroy_candidate_flag a b)
            (csim_seq (csim_destroy_seeds_flag a b) (csim_cleanup_token a b))))))

theorem run_configured (f : files) (name : String) :
    close_files_run { f with bounds_map := some name } =
      close_tail
        ⟨{ f with
            bounds_map := some name
            bands_seg := (segment_close f.bands_seg).1
            bounds_seg := (segment_close f.bounds_seg).1 },
          [Release.segment_close Seg.bands_seg, Release.segment_close Seg.bounds_seg]⟩ := by
  have hrun : close_files_run { f with bounds_map := some name } =
      then_close (close_bands_seg ⟨{ f with bounds_map := some name }, []⟩)
        fun s => then_close (close_bounds_seg s) close_tail := rfl
  rw [hrun, then_close_none _ rfl]
  unfold close_bounds_seg
  rw [if_pos (by exact fun hn => Option.noConfusion hn), then_close_none _ rfl]
  rfl

theorem run_not_configured (f : files) :
    close_files_run { f with bounds_map := none } =
      close_tail
        ⟨{ f with
            bounds_map := none
            bands_seg := (segment_close f.bands_seg).1 },
          [Release.segment_close Seg.bands_seg]⟩ := by
  have hrun : close_files_run { f with bounds_map := none } =
      then_close (close_bands_seg ⟨{ f with bounds_map := none }, []⟩)
        fun s => then_close (close_bounds_seg s) close_tail := rfl
  rw [hrun, then_close_none _ rfl]
  unfold close_bounds_seg
  rw [if_neg (by exact fun hn => hn rfl), then_close_none _ rfl]
  rfl

theorem bounds_closed (f : files) (hb : f.bounds_map ≠ none) :
    (close_files f).files.bounds_seg.is_open = false ∧
      (close_files f).files.bounds_seg.data = f.bounds_seg.data := by
  have hrun : close_files_run f =
      then_close (close_bands_seg ⟨f, []⟩) fun s => then_close (close_bounds_seg s) close_tail :=
    rfl
  have hf : (close_files f).files = (close_files_run f).1.files := rfl
  have hb2 : (close_bands_seg ⟨f, []⟩).1.files.bounds_map ≠ none := hb
  rw [hf, hrun, then_close_none _ rfl]
  unfold close_bounds_seg
  rw [if_pos hb2, then_close_none _ rfl]
  obtain ⟨cs, _, _, _, c4⟩ := steps_close_tail
    { files := { (close_bands_seg ⟨f, []⟩).1.files with
        bounds_seg := (segment_close (close_bands_seg ⟨f, []⟩).1.files.bounds_seg).1 }
      calls := (close_bands_seg ⟨f, []⟩).1.calls ++ [Release.segment_close Seg.bounds_seg] }
  rw [c4]
  show (segment_close f.bounds_seg).1.is_open = false ∧
    (segment_close f.bounds_seg).1.data = f.bounds_seg.data
  unfold segment_close
  cases ho : f.bounds_seg.is_open
  · exact ⟨ho, rfl⟩
  · exact ⟨rfl, rfl⟩

theorem configured_vs_not (f : files) (name : String) :
    (close_files { f with bounds_map := some name }).calls.erase
        (Release.segment_close Seg.bounds_seg) =
      (close_files { f with bounds_map := none }).calls ∧
    (close_files { f with bounds_map := some name }).status =
      (close_files { f with bounds_map := none }).status ∧
    (close_files { f with bounds_map := none }).files =
      { (close_files { f with bounds_map := some name }).files with
        bounds_map := none
        bounds_seg := f.bounds_seg } := by
  have hrel : CR [Release.segment_close Seg.bands_seg, Release.segment_close Seg.bounds_seg]
      [Release.segment_close Seg.bands_seg]
      ⟨{ f with
          bounds_map := some name
          bands_seg := (segment_close f.bands_seg).1
          bounds_seg := (segment_close f.bounds_seg).1 },
        [Release.segment_close Seg.bands_seg, Release.segment_close Seg.bounds_seg]⟩
      ⟨{ f with
          bounds_map := none
          bands_seg := (segment_close f.bands_seg).1 },
        [Release.segment_close Seg.bands_seg]⟩ :=
    ⟨⟨none, f.bounds_seg, rfl⟩, [], rfl, rfl⟩
  obtain ⟨⟨⟨m, bs, hf⟩, cs, h1, h2⟩, hst⟩ := csim_close_tail _ _ _ _ hrel
  have c3 := (close_files_calls { f with bounds_map := none }).choose_spec.2.2 rfl
  have c4 := close_files_bounds_map { f with bounds_map := none }
  have e1 : (close_files { f with bounds_map := some name }).calls =
      [Release.segment_close Seg.bands_seg, Release.segment_close Seg.bounds_seg] ++ cs := by
    show (close_files_run { f with bounds_map := some name }).1.calls = _
    rw [run_configured]; exact h1
  have e2 : (close_files { f with bounds_map := none }).calls =
      [Release.segment_close Seg.bands_seg] ++ cs := by
    show (close_files_run { f with bounds_map := none }).1.calls = _
    rw [run_not_configured]; exact h2
  have e3 : (close_files { f with bounds_map := none }).files =
      { (close_files { f with bounds_map := some name }).files with
        bounds_map := m, bounds_seg := bs } := by
    show (close_files_run { f with bounds_map := none }).1.files =
      { (close_files_run { f with bounds_map := some name }).1.files with
        bounds_map := m, bounds_seg := bs }
    rw [run_configured, run_not_configured]; exact hf
  have e4 : (close_files_run { f with bounds_map := some name }).2 =
      (close_files_run { f with bounds_map := none }).2 := by
    rw [run_configured, run_not_configured]; exact hst
  refine ⟨?_, ?_, ?_⟩
  · rw [e1, e2]
    simp [List.erase_cons]
  · show ((close_files_run { f with bounds_map := some name }).2).getD (Status.returned 1) =
      ((close_files_run { f with bounds_map := none }).2).getD (Status.returned 1)
    rw [e4]
  · have hm : m = none := by
      have : (close_files { f with bounds_map := none }).files.bounds_map = m := by rw [e3]
      rw [← this, c4]
    have hbs : bs = f.bounds_seg := by
      have : (close_files { f with bounds_map := none }).files.bounds_seg = bs := by rw [e3]
      rw [← this, c3]
    rw [e3, hm, hbs]

theorem close_files_twice (f : files) (h : live f) :
    (close_files f).status = Status.returned 1 ∧
    released (close_files f).files ∧
    segment_close (close_files f).files.bands_seg = ((close_files f).files.bands_seg, -1) ∧
    (f.bounds_map ≠ none →
      segment_close (close_files f).files.bounds_seg
        = ((close_files f).files.bounds_seg, -1)) ∧
    G_free (close_files f).files.bands_val.ptr = none ∧
    (close_files (close_files f).files).status = Status.undefined ∧
    (close_files (close_files f).files).calls =
      [Release.segment_close Seg.bands_seg] ++
        (if f.bounds_map ≠ none then [Release.segment_close Seg.bounds_seg] else []) ∧
    (close_files (close_files f).files).files = (close_files f).files := by
  obtain ⟨a1, _, _, _, a5⟩ := close_files_live f h
  obtain ⟨r1, r2, r3, r4, r5, r6, r7, r8, r9⟩ := a5
  have hmap : (close_files f).files.bounds_map = f.bounds_map := close_files_bounds_map f
  have hbands : segment_close (close_files f).files.bands_seg
      = ((close_files f).files.bands_seg, -1) := by
    unfold segment_close; rw [r1]; rfl
  have hbounds : f.bounds_map ≠ none →
      segment_close (close_files f).files.bounds_seg
        = ((close_files f).files.bounds_seg, -1) := by
    intro hb
    unfold segment_close
    rw [r3 (by rw [hmap]; exact hb)]; rfl
  have hfree : G_free (close_files f).files.bands_val.ptr = none := by
    rw [r4]; rfl
  refine ⟨a1, ⟨r1, r2, r3, r4, r5, r6, r7, r8, r9⟩, hbands, hbounds, hfree, ?_⟩
  generalize (close_files f).files = g at *
  have hrun : close_files_run g =
      then_close (close_bands_seg ⟨g, []⟩) fun s => then_close (close_bounds_seg s) close_tail :=
    rfl
  have hb1 : (close_bands_seg ⟨g, []⟩).1 = ⟨g, [Release.segment_close Seg.bands_seg]⟩ := by
    show (⟨{ g with bands_seg := (segment_close g.bands_seg).1 },
      [] ++ [Release.segment_close Seg.bands_seg]⟩ : CSt) = _
    rw [hbands]
    rfl
  have htail : ∀ s : CSt, s.files.bands_val.ptr = Ptr.freed →
      close_tail s = (s, some Status.undefined) := by
    intro s hs
    unfold close_tail free_bands_val
    rw [hs]
    rfl
  by_cases hb : f.bounds_map ≠ none
  · have hg : g.bounds_map ≠ none := by rw [hmap]; exact hb
    have e2 : close_bounds_seg (close_bands_seg ⟨g, []⟩).1 =
        (⟨g, [Release.segment_close Seg.bands_seg, Release.segment_close Seg.bounds_seg]⟩,
          none) := by
      unfold close_bounds_seg
      rw [hb1, if_pos hg, hbounds hb]
      rfl
    have e3 : close_files_run g =
        (⟨g, [Release.segment_close Seg.bands_seg, Release.segment_close Seg.bounds_seg]⟩,
          some Status.undefined) := by
      rw [hrun, then_close_none _ rfl, e2, then_close_none _ rfl]
      exact htail _ r4
    have hs : (close_files g).status = ((close_files_run g).2).getD (Status.returned 1) := rfl
    have hc : (close_files g).calls = (close_files_run g).1.calls := rfl
    have hf : (close_files g).files = (close_files_run g).1.files := rfl
    rw [hs, hc, hf, e3, if_pos hb]
    exact ⟨rfl, rfl, rfl⟩
  · have hg : ¬ g.bounds_map ≠ none := by rw [hmap]; exact hb
    have e2 : close_bounds_seg (close_bands_seg ⟨g, []⟩).1 =
        (⟨g, [Release.segment_close Seg.bands_seg]⟩, none) := by
      unfold close_bounds_seg
      rw [hb1, if_neg hg]
    have e3 : close_files_run g =
        (⟨g, [Release.segment_close Seg.bands_seg]⟩, some Status.undefined) := by
      rw [hrun, then_close_none _ rfl, e2, then_close_none _ rfl]
      exact htail _ r4
    have hs : (close_files g).status = ((close_files_run g).2).getD (Status.returned 1) := rfl
    have hc : (close_files g).calls = (close_files_run g).1.calls := rfl
    have hf : (close_files g).files = (close_files_run g).1.files := rfl
    rw [hs, hc, hf, e3, if_neg hb]
    exact ⟨rfl, rfl, rfl⟩

/-! ## The claims -/

/-- C1: for a pixel inside the extent that is not flagged excluded, the cell
at its column in the row-th row written to the label raster is the label
store's value at the pixel, and the cell at its column in the row-th mean row
(in the mean buffer after the scan of the row, and in the row written to the
mean raster) is the first band value of the band store's cell at the pixel.
In a run that returns, the row-th row is written. -/
theorem C1_kept_pixel_copied (lib : RasterLib) (f : files) (row col : Nat)
    (hr : (row : Int) < f.nrows) (hc : (col : Int) < f.ncols)
    (hx : FLAG_GET f.null_flag row col = false) :
    (∀ r, (label_rows (write_output lib f).trace)[row]? = some r →
        r[col]? = some (segment_get f.iseg_seg row col)) ∧
    (∀ r, (mean_rows (write_output lib f).trace)[row]? = some r →
        r[col]? = some (segment_get f.bands_seg row col).first) ∧
    (∀ s : St, (∃ v, s.files = set_val f v) → s.outbuf.length = f.ncols.toNat →
        s.meanbuf.length = f.ncols.toNat →
        (scan_row row s).outbuf[col]? = some (segment_get f.iseg_seg row col) ∧
        (scan_row row s).meanbuf[col]? = some (segment_get f.bands_seg row col).first) ∧
    ((write_output lib f).status = Status.returned 1 →
        (∃ r, (label_rows (write_output lib f).trace)[row]? = some r ∧
          r[col]? = some (segment_get f.iseg_seg row col)) ∧
        (f.out_band ≠ none →
          ∃ r, (mean_rows (write_output lib f).trace)[row]? = some r ∧
            r[col]? = some (segment_get f.bands_seg row col).first)) := by
  have hc2 : col < f.ncols.toNat := Int.lt_toNat.2 hc
  have hl : label_cell f row col = segment_get f.iseg_seg row col := by
    unfold label_cell; rw [hx]; rfl
  have hm : mean_cell f row col = (segment_get f.bands_seg row col).first := by
    unfold mean_cell; rw [hx]; rfl
  refine ⟨?_, ?_, ?_, ?_⟩
  rotate_left 3
  · intro hs
    obtain ⟨e1, e2⟩ := returned_row_exists lib f row hr hs
    refine ⟨⟨_, e1, ?_⟩, fun hb => ⟨_, e2 hb, ?_⟩⟩
    · rw [label_row_get f row col hc2, hl]
    · rw [mean_row_get f row col hc2, hm]
  · intro r h
    rw [(label_rows_get lib f row r h).1, label_row_get f row col hc2, hl]
  · intro r h
    rw [(mean_rows_get lib f row r h).1, mean_row_get f row col hc2, hm]
  · intro s h3 h1 h2
    obtain ⟨a1, a2, _⟩ := scan_row_spec f row s h1 h2 h3
    rw [a1, a2, label_row_get f row col hc2, mean_row_get f row col hc2, hl, hm]
    exact ⟨rfl, rfl⟩

/-- C1, on the scenario of the specification: the label rows are
`[[1,NODATA],[2,2]]`, the mean rows `[[5.0,NODATA],[9.0,9.0]]`, and pixel (0,0)
is copied. -/
theorem C1_kept_pixel_copied_witness :
    ((0 : Nat) : Int) < (scenario (some "mean")).nrows ∧
    ((0 : Nat) : Int) < (scenario (some "mean")).ncols ∧
    FLAG_GET (scenario (some "mean")).null_flag 0 0 = false ∧
    label_rows (write_output lib_ok (scenario (some "mean"))).trace = [[1, c_null], [2, 2]] ∧
    mean_rows (write_output lib_ok (scenario (some "mean"))).trace
      = [[d5, d_null], [d9, d9]] ∧
    (∀ r, (label_rows (write_output lib_ok (scenario (some "mean"))).trace)[0]? = some r →
        r[0]? = some 1) ∧
    (∀ r, (mean_rows (write_output lib_ok (scenario (some "mean"))).trace)[0]? = some r →
        r[0]? = some d5) :=
  ⟨by decide, by decide, by decide, by decide, by decide,
    (C1_kept_pixel_copied lib_ok (scenario (some "mean")) 0 0 (by decide) (by decide)
      (by decide)).1,
    (C1_kept_pixel_copied lib_ok (scenario (some "mean")) 0 0 (by decide) (by decide)
      (by decide)).2.1⟩

/-- C2: for a pixel inside the extent that is flagged excluded, the cell at
its column in the row-th row written to the label raster is the CELL null
value and, when a mean raster is written, the cell at its column in the row-th
mean row is the DCELL null value, whatever the stores and the earlier rows
hold.  In a run that returns, the row-th row is written. -/
theorem C2_excluded_pixel_null (lib : RasterLib) (f : files) (row col : Nat)
    (hr : (row : Int) < f.nrows) (hc : (col : Int) < f.ncols)
    (hx : FLAG_GET f.null_flag row col = true) :
    (∀ r, (label_rows (write_output lib f).trace)[row]? = some r →
        r[col]? = some c_null) ∧
    (∀ r, (mean_rows (write_output lib f).trace)[row]? = some r →
        r[col]? = some d_null) ∧
    (∀ s : St, (∃ v, s.files = set_val f v) → s.outbuf.length = f.ncols.toNat →
        s.meanbuf.length = f.ncols.toNat →
        (scan_row row s).outbuf[col]? = some c_null ∧
        (scan_row row s).meanbuf[col]? = some d_null) ∧
    ((write_output lib f).status = Status.returned 1 →
        (∃ r, (label_rows (write_output lib f).trace)[row]? = some r ∧
          r[col]? = some c_null) ∧
        (f.out_band ≠ none →
          ∃ r, (mean_rows (write_output lib f).trace)[row]? = some r ∧
            r[col]? = some d_null)) := by
  have hc2 : col < f.ncols.toNat := Int.lt_toNat.2 hc
  have hl : label_cell f row col = c_null := by
    unfold label_cell; rw [hx]; rfl
  have hm : mean_cell f row col = d_null := by
    unfold mean_cell; rw [hx]; rfl
  refine ⟨?_, ?_, ?_, ?_⟩
  rotate_left 3
  · intro hs
    obtain ⟨e1, e2⟩ := returned_row_exists lib f row hr hs
    refine ⟨⟨_, e1, ?_⟩, fun hb => ⟨_, e2 hb, ?_⟩⟩
    · rw [label_row_get f row col hc2, hl]
    · rw [mean_row_get f row col hc2, hm]
  · intro r h
    rw [(label_rows_get lib f row r h).1, label_row_get f row col hc2, hl]
  · intro r h
    rw [(mean_rows_get lib f row r h).1, mean_row_get f row col hc2, hm]
  · intro s h3 h1 h2
    obtain ⟨a1, a2, _⟩ := scan_row_spec f row s h1 h2 h3
    rw [a1, a2, label_row_get f row col hc2, mean_row_get f row col hc2, hl, hm]
    exact ⟨rfl, rfl⟩

/-- C2, on the scenario of the specification at the excluded pixel (0,1). -/
theorem C2_excluded_pixel_null_witness :
    ((0 : Nat) : Int) < (scenario (some "mean")).nrows ∧
    ((1 : Nat) : Int) < (scenario (some "mean")).ncols ∧
    FLAG_GET (scenario (some "mean")).null_flag 0 1 = true ∧
    (label_rows (write_output lib_ok (scenario (some "mean"))).trace)[0]?
      = some [1, c_null] ∧
    (mean_rows (write_output lib_ok (scenario (some "mean"))).trace)[0]?
      = some [d5, d_null] ∧
    (∀ r, (label_rows (write_output lib_ok (scenario (some "mean"))).trace)[0]? = some r →
        r[1]? = some c_null) ∧
    (∀ r, (mean_rows (write_output lib_ok (scenario (some "mean"))).trace)[0]? = some r →
        r[1]? = some d_null) :=
  ⟨by decide, by decide, by decide, by decide, by decide,
    (C2_excluded_pixel_null lib_ok (scenario (some "mean")) 0 1 (by decide) (by decide)
      (by decide)).1,
    (C2_excluded_pixel_null lib_ok (scenario (some "mean")) 0 1 (by decide) (by decide)
      (by decide)).2.1⟩

/-- C3, as stated, fails: in a 1x1 raster whose pixel is not excluded and
whose stored label is the CELL null value, the cell written is the null value,
so "null if and only if excluded" does not hold there. -/
theorem C3_counterexample :
    ((0 : Nat) : Int) < null_label_ctx.nrows ∧ ((0 : Nat) : Int) < null_label_ctx.ncols ∧
    (label_rows (write_output lib_ok null_label_ctx).trace)[0]? = some [c_null] ∧
    ¬ (([c_null] : List CELL)[0]? = some c_null ↔
        FLAG_GET null_label_ctx.null_flag 0 0 = true) := by
  decide

/-- C3, amended: for a pixel inside the extent, the label cell written is the
CELL null value if and only if the pixel is flagged excluded or the label
stored for it is itself the CELL null value; in a run that returns, the
row-th row is written. -/
theorem C3_null_iff_excluded_or_null_label (lib : RasterLib) (f : files) (row col : Nat)
    (hr : (row : Int) < f.nrows) (hc : (col : Int) < f.ncols) :
    (∀ r, (label_rows (write_output lib f).trace)[row]? = some r →
      (r[col]? = some c_null ↔
        (FLAG_GET f.null_flag row col = true ∨ segment_get f.iseg_seg row col = c_null))) ∧
    ((write_output lib f).status = Status.returned 1 →
      ∃ r, (label_rows (write_output lib f).trace)[row]? = some r) := by
  refine ⟨?_, fun hs => ⟨_, (returned_row_exists lib f row hr hs).1⟩⟩
  intro r h
  have hc2 : col < f.ncols.toNat := Int.lt_toNat.2 hc
  rw [(label_rows_get lib f row r h).1, label_row_get f row col hc2]
  unfold label_cell segment_get
  cases hx : FLAG_GET f.null_flag row col
  · simp
  · simp

/-- C3 amended, on the scenario of the specification: pixel (0,1) is written
as null and is excluded. -/
theorem C3_null_iff_excluded_or_null_label_witness :
    ((0 : Nat) : Int) < (scenario none).nrows ∧ ((1 : Nat) : Int) < (scenario none).ncols ∧
    (([1, c_null] : List CELL)[1]? = some c_null ↔
      (FLAG_GET (scenario none).null_flag 0 1 = true ∨
        segment_get (scenario none).iseg_seg 0 1 = c_null)) :=
  ⟨by decide, by decide,
    (C3_null_iff_excluded_or_null_label lib_ok (scenario none) 0 1 (by decide) (by decide)).1
      [1, c_null] (by decide)⟩

/-- C4: `write_output` touches a second raster if and only if `out_band` is
not NULL.  With `out_band` NULL every open, row write and close of a run is on
the label raster and no DCELL row is written.  With `out_band` set, a run that
returns has opened the mean raster once, written exactly `nrows` rows to it
and closed it once.  The uninitialised `mean_fd` is never used, and a run in
which no call fails returns TRUE. -/
theorem C4_mean_raster_iff_out_band (lib : RasterLib) (f : files) :
    (write_output lib f).status ≠ Status.undefined ∧
    (f.out_band = none →
      (∀ e ∈ (write_output lib f).trace, ∀ fd, e.raster = some fd → fd = out_fd f) ∧
      mean_rows (write_output lib f).trace = []) ∧
    (∀ name, f.out_band = some name →
      (write_output lib f).status = Status.returned 1 →
      List.count (Event.open_new name RASTER_MAP_TYPE.DCELL_TYPE)
        (write_output lib f).trace = 1 ∧
      (mean_rows (write_output lib f).trace).length = f.nrows.toNat ∧
      (∀ fd buf, Event.put_row_d fd buf ∈ (write_output lib f).trace →
        fd = ⟨name, RASTER_MAP_TYPE.DCELL_TYPE⟩) ∧
      List.count (Event.close ⟨name, RASTER_MAP_TYPE.DCELL_TYPE⟩)
        (write_output lib f).trace = 1) ∧
    ((∀ tr e, lib.fails tr e = false) →
      (write_output lib f).status = Status.returned 1) := by
  refine ⟨?_, ?_, ?_, ?_⟩
  · rcases status_cases lib f with h | ⟨e, h⟩ <;> rw [h] <;> exact fun hn => Status.noConfusion hn
  · intro hb
    have hfull : ∀ e ∈ full_trace f, ∀ fd, e.raster = some fd → fd = out_fd f := by
      intro e he fd hfd
      unfold full_trace tail_events mean_open_events mean_close_events at he
      rw [hb] at he
      simp only [List.append_nil, List.mem_append, List.mem_singleton, List.mem_cons,
        List.not_mem_nil, or_false] at he
      have key : e = Event.open_new f.out_name RASTER_MAP_TYPE.CELL_TYPE ∨
          e ∈ events_from f f.nrows.toNat 0 ∨ e = Event.close (out_fd f) ∨
          e = Event.write_colors f.out_name 1 (int_mul f.nrows f.ncols) ∨
          e = Event.write_history f.out_name := by tauto
      rcases key with rfl | he | rfl | rfl | rfl
      · exact (Option.some.inj hfd).symm
      · rcases mem_events_from f _ _ e he with ⟨r, h2⟩ | ⟨name, r, h3, _⟩
        · rw [h2] at hfd; exact (Option.some.inj hfd).symm
        · rw [hb] at h3; exact Option.noConfusion h3
      · exact (Option.some.inj hfd).symm
      · exact Option.noConfusion hfd
      · exact Option.noConfusion hfd
    refine ⟨fun e he => hfull e ((trace_initial lib f).subset he), ?_⟩
    have hp : mean_rows (write_output lib f).trace <+: mean_rows (full_trace f) :=
      List.IsPrefix.filterMap _ (trace_initial lib f)
    rw [mean_rows_full, if_pos hb] at hp
    exact List.prefix_nil.1 hp
  · intro name hb hs
    rcases write_output_cases lib f with ⟨_, ht⟩ | ⟨e, rest, hs2, _, _⟩
    · rw [ht]
      have hne : f.out_band ≠ none := by rw [hb]; exact fun hn => Option.noConfusion hn
      have hnotin1 : Event.open_new name RASTER_MAP_TYPE.DCELL_TYPE ∉
          events_from f f.nrows.toNat 0 := by
        intro hm
        rcases mem_events_from f _ _ _ hm with ⟨r, h2⟩ | ⟨n2, r, _, h2⟩ <;>
          exact Event.noConfusion h2
      have hnotin2 : Event.close ⟨name, RASTER_MAP_TYPE.DCELL_TYPE⟩ ∉
          events_from f f.nrows.toNat 0 := by
        intro hm
        rcases mem_events_from f _ _ _ hm with ⟨r, h2⟩ | ⟨n2, r, _, h2⟩ <;>
          exact Event.noConfusion h2
      refine ⟨?_, ?_, ?_, ?_⟩
      · unfold full_trace tail_events mean_open_events mean_close_events
        rw [hb]
        simp [List.count_append, List.count_cons, List.count_eq_zero.2 hnotin1, out_fd]
      · rw [mean_rows_full, if_neg hne]; simp
      · intro fd buf hm
        unfold full_trace tail_events mean_open_events mean_close_events at hm
        rw [hb] at hm
        simp only [List.mem_append, List.mem_singleton, List.mem_cons,
          List.not_mem_nil, or_false, reduceCtorEq] at hm
        have key : Event.put_row_d fd buf ∈ events_from f f.nrows.toNat 0 := by
          simpa using hm
        rcases mem_events_from f _ _ _ key with ⟨r, h2⟩ | ⟨n2, r, h3, h2⟩
        · exact Event.noConfusion h2
        · rw [hb] at h3
          have hn : name = n2 := Option.some.inj h3
          injection h2 with h4 _
          rw [h4, hn]
      · unfold full_trace tail_events mean_open_events mean_close_events
        rw [hb]
        simp [List.count_append, List.count_cons, List.count_eq_zero.2 hnotin2, out_fd]
    · rw [hs2] at hs
      exact Status.noConfusion hs
  · intro hok
    rcases write_output_cases lib f with ⟨h, _⟩ | ⟨e, rest, _, _, hfail⟩
    · exact h
    · rw [hok] at hfail
      exact Bool.noConfusion hfail

/-- C5: a run of `write_output` either returns TRUE or ends with a fatal
error at a library call that failed.  When a call fails the run has made only
the calls before it, so no further row is written; when that call is an open,
a row write or a close, neither the color table nor the history has been
written.  A run returns only if no call of the full trace failed.  If the
color table or the history is written, then every row write is in the trace
(`nrows` label rows and, with a mean raster, `nrows` mean rows), the label
raster is closed, and every call of the run succeeded. -/
theorem C5_failure_is_fatal (lib : RasterLib) (f : files) :
    ((write_output lib f).status = Status.returned 1 ∨
      ∃ e, (write_output lib f).status = Status.fatal e) ∧
    (∀ e, (write_output lib f).status = Status.fatal e →
      lib.fails (write_output lib f).trace e = true ∧
      (∃ rest, full_trace f = (write_output lib f).trace ++ e :: rest) ∧
      (e.raster ≠ none → ∀ x ∈ (write_output lib f).trace, x.is_finish = false)) ∧
    ((write_output lib f).status = Status.returned 1 →
      (write_output lib f).trace = full_trace f ∧
      ∀ a e c, full_trace f = a ++ e :: c → lib.fails a e = false) ∧
    (∀ x ∈ (write_output lib f).trace, x.is_finish = true →
      (label_rows (write_output lib f).trace).length = f.nrows.toNat ∧
      (f.out_band ≠ none →
        (mean_rows (write_output lib f).trace).length = f.nrows.toNat) ∧
      Event.close (out_fd f) ∈ (write_output lib f).trace ∧
      ∀ a e c, (write_output lib f).trace = a ++ e :: c → lib.fails a e = false) := by
  refine ⟨status_cases lib f, ?_, ?_, ?_⟩
  · intro e he
    rcases write_output_cases lib f with ⟨h, _⟩ | ⟨e2, rest, h, hfull, hfail⟩
    · rw [h] at he; exact Status.noConfusion he
    · rw [h] at he
      have hee : e2 = e := by injection he
      subst hee
      refine ⟨hfail, ⟨rest, hfull⟩, ?_⟩
      intro hr x hx
      cases hxf : x.is_finish with
      | false => rfl
      | true =>
        exfalso
        have hp := head_before_finish lib f x hx hxf
        obtain ⟨t, ht⟩ := hp
        rw [full_trace_split, ← ht, List.append_assoc] at hfull
        have h2 := List.append_cancel_left hfull
        cases t with
        | nil =>
          rw [← ht, List.append_nil] at hx
          have := head_events_not_finish f x hx
          rw [hxf] at this
          exact Bool.noConfusion this
        | cons t0 t =>
          simp only [List.cons_append, List.cons.injEq] at h2
          cases t with
          | nil =>
            simp only [List.nil_append, List.cons.injEq] at h2
            apply hr
            rw [← h2.2.1]
            rfl
          | cons t1 t =>
            simp only [List.cons_append, List.cons.injEq] at h2
            have h3 := h2.2.2
            cases t <;> simp at h3
  · intro hs
    rcases write_output_cases lib f with ⟨_, ht⟩ | ⟨e2, rest, h, _, _⟩
    · refine ⟨ht, ?_⟩
      intro a e c hsplit
      exact calls_passed lib f a e c (by rw [ht, hsplit])
    · rw [h] at hs; exact Status.noConfusion hs
  · intro x hx hxf
    have hp := head_before_finish lib f x hx hxf
    have hl1 : label_rows (head_events f) <+: label_rows (write_output lib f).trace :=
      List.IsPrefix.filterMap _ hp
    have hl2 : label_rows (write_output lib f).trace <+: label_rows (full_trace f) :=
      List.IsPrefix.filterMap _ (trace_initial lib f)
    have hm1 : mean_rows (head_events f) <+: mean_rows (write_output lib f).trace :=
      List.IsPrefix.filterMap _ hp
    have hm2 : mean_rows (write_output lib f).trace <+: mean_rows (full_trace f) :=
      List.IsPrefix.filterMap _ (trace_initial lib f)
    rw [label_rows_head] at hl1
    rw [mean_rows_head] at hm1
    have el := hl2.eq_of_length_le hl1.length_le
    have em := hm2.eq_of_length_le hm1.length_le
    refine ⟨?_, ?_, ?_, calls_passed lib f⟩
    · rw [el, label_rows_full]; simp
    · intro hb
      rw [em, mean_rows_full, if_neg hb]; simp
    · apply hp.subset
      simp [head_events]

/-- C6: on a context before teardown, one call of `close_files` returns TRUE
after exactly these release calls, in this order: band store closed, boundary
store closed if a boundary map is configured, `bands_val` and `second_val`
freed, label store closed, null, candidate and seed flag sets destroyed,
`link_cleanup` on the token.  No call occurs twice, the calls are exactly those
on the resources of the context, and every resource ends released. -/
theorem C6_release_once_in_order (f : files) (h : live f) :
    (close_files f).status = Status.returned 1 ∧
    (close_files f).calls =
      [Release.segment_close Seg.bands_seg] ++
        (if f.bounds_map ≠ none then [Release.segment_close Seg.bounds_seg] else []) ++
        [Release.G_free Buf.bands_val, Release.G_free Buf.second_val,
          Release.segment_close Seg.iseg_seg, Release.flag_destroy Flg.null_flag,
          Release.flag_destroy Flg.candidate_flag, Release.flag_destroy Flg.seeds_flag,
          Release.link_cleanup] ∧
    (close_files f).calls.Nodup ∧
    (∀ c, c ∈ owned f ↔ c ∈ (close_files f).calls) ∧
    released (close_files f).files :=
  close_files_live f h

/-- C6, on the scenario of the specification (no boundary map) and on the
same context with a boundary map configured. -/
theorem C6_release_once_in_order_witness :
    live (scenario none) ∧
    (close_files (scenario none)).calls =
      [Release.segment_close Seg.bands_seg, Release.G_free Buf.bands_val,
        Release.G_free Buf.second_val, Release.segment_close Seg.iseg_seg,
        Release.flag_destroy Flg.null_flag, Release.flag_destroy Flg.candidate_flag,
        Release.flag_destroy Flg.seeds_flag, Release.link_cleanup] ∧
    (close_files (scenario none)).status = Status.returned 1 ∧
    released (close_files (scenario none)).files :=
  ⟨by decide, (C6_release_once_in_order (scenario none) (by decide)).2.1,
    (C6_release_once_in_order (scenario none) (by decide)).1,
    (C6_release_once_in_order (scenario none) (by decide)).2.2.2.2⟩

/-- C7: `close_files` closes the boundary store if and only if `bounds_map`
is not NULL.  For every context the call `segment_close(bounds_seg)` is in the
release trace exactly when `bounds_map` is set; when it is set the boundary
store ends closed, with its content as it was; when it is NULL the boundary
store is left as it is.  For every context, the run with `bounds_map` NULL
makes the calls of the run with `bounds_map` set minus the boundary close,
ends in the same way and leaves the same context up to the boundary members.
On a context before teardown these are the other eight release calls, in
source order, and the run returns TRUE. -/
theorem C7_bounds_closed_iff_configured (f : files) :
    (Release.segment_close Seg.bounds_seg ∈ (close_files f).calls ↔ f.bounds_map ≠ none) ∧
    (f.bounds_map ≠ none →
      (close_files f).files.bounds_seg.is_open = false ∧
      (close_files f).files.bounds_seg.data = f.bounds_seg.data) ∧
    (f.bounds_map = none → (close_files f).files.bounds_seg = f.bounds_seg) ∧
    (∀ name : String,
      (close_files { f with bounds_map := some name }).calls.erase
          (Release.segment_close Seg.bounds_seg) =
        (close_files { f with bounds_map := none }).calls ∧
      (close_files { f with bounds_map := some name }).status =
        (close_files { f with bounds_map := none }).status ∧
      (close_files { f with bounds_map := none }).files =
        { (close_files { f with bounds_map := some name }).files with
          bounds_map := none
          bounds_seg := f.bounds_seg }) ∧
    (live f →
      (close_files f).status = Status.returned 1 ∧
      (close_files f).calls.erase (Release.segment_close Seg.bounds_seg) =
        [Release.segment_close Seg.bands_seg, Release.G_free Buf.bands_val,
          Release.G_free Buf.second_val, Release.segment_close Seg.iseg_seg,
          Release.flag_destroy Flg.null_flag, Release.flag_destroy Flg.candidate_flag,
          Release.flag_destroy Flg.seeds_flag, Release.link_cleanup]) := by
  obtain ⟨cs, c1, c2, c3⟩ := close_files_calls f
  refine ⟨?_, bounds_closed f, c3, configured_vs_not f, ?_⟩
  · rw [c2]
    have hcs : Release.segment_close Seg.bounds_seg ∉ cs := by
      intro hm
      have := c1.subset hm
      revert this
      decide
    by_cases hb : f.bounds_map ≠ none
    · simp [hb]
    · simp [hb, hcs]
  · intro hl
    obtain ⟨d1, d2, _⟩ := close_files_live f hl
    refine ⟨d1, ?_⟩
    rw [d2]
    by_cases hb : f.bounds_map ≠ none
    · rw [if_pos hb]; decide
    · rw [if_neg hb]; decide

/-- C8, as stated, fails: the scenario context is a context before teardown,
the first `close_files` returns TRUE and leaves `bands_val` freed, and a second
`close_files` on the context it leaves frees `bands_val` again, which is
undefined. -/
theorem C8_counterexample :
    live (scenario none) ∧
    (close_files (scenario none)).status = Status.returned 1 ∧
    (close_files (scenario none)).files.bands_val.ptr = Ptr.freed ∧
    G_free (close_files (scenario none)).files.bands_val.ptr = none ∧
    (close_files (close_files (scenario none)).files).status = Status.undefined := by
  decide

/-- C8, amended: on a context before teardown one call of `close_files`
returns TRUE and releases every resource.  A second call on the context it
leaves meets the band store and (if configured) the boundary store already
closed, where `segment_close` returns -1 and changes nothing, and then passes
the already freed `bands_val` to `G_free`: the run is undefined there, having
completed only the store closes and changed nothing in the context. -/
theorem C8_second_call_frees_twice (f : files) (h : live f) :
    (close_files f).status = Status.returned 1 ∧
    released (close_files f).files ∧
    segment_close (close_files f).files.bands_seg = ((close_files f).files.bands_seg, -1) ∧
    (f.bounds_map ≠ none →
      segment_close (close_files f).files.bounds_seg
        = ((close_files f).files.bounds_seg, -1)) ∧
    G_free (close_files f).files.bands_val.ptr = none ∧
    (close_files (close_files f).files).status = Status.undefined ∧
    (close_files (close_files f).files).calls =
      [Release.segment_close Seg.bands_seg] ++
        (if f.bounds_map ≠ none then [Release.segment_close Seg.bounds_seg] else []) ∧
    (close_files (close_files f).files).files = (close_files f).files :=
  close_files_twice f h

/-- C8 amended, on the scenario of the specification. -/
theorem C8_second_call_frees_twice_witness :
    live (scenario none) ∧
    (close_files (close_files (scenario none)).files).status = Status.undefined ∧
    (close_files (close_files (scenario none)).files).calls
      = [Release.segment_close Seg.bands_seg] :=
  ⟨by decide, (C8_second_call_frees_twice (scenario none) (by decide)).2.2.2.2.2.1,
    (C8_second_call_frees_twice (scenario none) (by decide)).2.2.2.2.2.2.1⟩

/-- C9, as stated, fails: on the 2x2 scenario the run returns TRUE and the
scratch buffer `bands_val`, which held zero before the call, holds the band
cell of the last pixel (9.0) after it. -/
theorem C9_counterexample :
    (write_output lib_ok (scenario none)).status = Status.returned 1 ∧
    (scenario none).bands_val.val = ⟨0, []⟩ ∧
    (write_output lib_ok (scenario none)).files.bands_val.val = ⟨d9, []⟩ ∧
    (write_output lib_ok (scenario none)).files.bands_val.val
      ≠ (scenario none).bands_val.val := by
  decide

/-- C9, amended: after `write_output` every member of the context is as it
was before the call, except the content of the scratch buffer `bands_val`;
after a run that returns, that buffer holds the band cell of the last pixel
scanned, `(nrows-1, ncols-1)`, or its old content when the extent is empty. -/
theorem C9_only_scratch_content_changes (lib : RasterLib) (f : files) :
    (write_output lib f).files =
      { f with
        bands_val :=
          { f.bands_val with val := (write_output lib f).files.bands_val.val } } ∧
    ((write_output lib f).status = Status.returned 1 →
      (write_output lib f).files.bands_val.val =
        if 0 < f.nrows ∧ 0 < f.ncols then
          segment_get f.bands_seg (f.nrows.toNat - 1) (f.ncols.toNat - 1)
        else f.bands_val.val) := by
  obtain ⟨⟨v, hv⟩, ht, hsucc⟩ := run_spec lib f
  have hf : (write_output lib f).files = set_val f v := hv
  refine ⟨?_, ?_⟩
  · rw [hf]; rfl
  · intro hs
    have hnone : (write_output_run lib f).2 = none := by
      cases h2 : (write_output_run lib f).2 with
      | none => rfl
      | some st =>
        have hst : (write_output lib f).status = st := by
          show ((write_output_run lib f).2).getD (Status.returned 1) = st
          rw [h2]; rfl
        rw [hs] at hst
        exfalso
        have t2 : (write_output_run lib f).2 = (attempt lib [] (full_trace f)).2 := by
          rw [← ht]
        obtain ⟨done, _, d2, _⟩ := attempt_spec lib (full_trace f) []
        rcases d2 with ⟨d2a, _⟩ | ⟨e, rest, d2a, _, _⟩
        · rw [t2, d2a] at h2; exact Option.noConfusion h2
        · rw [t2, d2a] at h2
          rw [← Option.some.inj h2] at hst
          exact Status.noConfusion hst
    have hval : (write_output lib f).files.bands_val.val
        = last_val f f.bands_val.val f.nrows.toNat 0 := (hsucc hnone).2
    rw [hval]
    unfold last_val segment_get
    by_cases h0 : 0 < f.nrows ∧ 0 < f.ncols
    · have h1 : ¬ (f.nrows.toNat = 0 ∨ f.ncols.toNat = 0) := by
        intro h; rcases h with h | h <;> omega
      rw [if_pos h0, if_neg h1, Nat.zero_add]
    · have h1 : f.nrows.toNat = 0 ∨ f.ncols.toNat = 0 := by
        by_contra hc
        apply h0
        constructor <;> omega
      rw [if_neg h0, if_pos h1]

/-- C10: the variant that fetches the band cell only for pixels not excluded
makes the same library calls with the same rows and ends in the same way as
`write_output`; the contexts left by the two differ at most in the content of
the scratch buffer `bands_val`; and a run of `write_output` that returns has
read the band store `nrows * ncols` times. -/
theorem C10_fetch_inside_mask_same_rows (lib : RasterLib) (f : files) :
    label_rows (write_output_lazy lib f).trace = label_rows (write_output lib f).trace ∧
    mean_rows (write_output_lazy lib f).trace = mean_rows (write_output lib f).trace ∧
    (write_output_lazy lib f).trace = (write_output lib f).trace ∧
    (write_output_lazy lib f).status = (write_output lib f).status ∧
    (∃ v, (write_output_lazy lib f).files = set_val (write_output lib f).files v) ∧
    ((write_output lib f).status = Status.returned 1 →
      (write_output lib f).band_reads = f.nrows.toNat * f.ncols.toNat) := by
  obtain ⟨⟨_, _, _, h4, h5⟩, hst⟩ := run_sim lib f
  have ht : (write_output_lazy lib f).trace = (write_output lib f).trace := h4
  have hs : (write_output_lazy lib f).status = (write_output lib f).status := by
    show ((write_output_lazy_run lib f).2).getD _ = ((write_output_run lib f).2).getD _
    rw [hst]
  refine ⟨by rw [ht], by rw [ht], ht, hs, h5, ?_⟩
  intro hret
  obtain ⟨_, htr, hsucc⟩ := run_spec lib f
  have hnone : (write_output_run lib f).2 = none := by
    cases h2 : (write_output_run lib f).2 with
    | none => rfl
    | some st =>
      have hst2 : (write_output lib f).status = st := by
        show ((write_output_run lib f).2).getD (Status.returned 1) = st
        rw [h2]; rfl
      rw [hret] at hst2
      exfalso
      have t2 : (write_output_run lib f).2 = (attempt lib [] (full_trace f)).2 := by
        rw [← htr]
      obtain ⟨done, _, d2, _⟩ := attempt_spec lib (full_trace f) []
      rcases d2 with ⟨d2a, _⟩ | ⟨e, rest, d2a, _, _⟩
      · rw [t2, d2a] at h2; exact Option.noConfusion h2
      · rw [t2, d2a] at h2
        rw [← Option.some.inj h2] at hst2
        exact Status.noConfusion hst2
  exact (hsucc hnone).1

end ISegment
